import Mathlib

/-!
Scan-and-debounce engine of the uni122 keyboard firmware (`matrix.c`).

Shallow embedding of `matrix.c` and `led.c`.  The debounce filter is the three
file-scope variables `matrix`, `matrix_debouncing` and `debouncing`, and the
functions `matrix_init`, `matrix_scan` and `matrix_get_row` that read and write them.

* The arrays `matrix_row_t matrix[MATRIX_ROWS]` and
  `matrix_row_t matrix_debouncing[MATRIX_ROWS]` are maps from a row index to a
  row bitmask; the loops of the source only touch the indices below
  `MATRIX_ROWS`.
* `MATRIX_ROWS` and `DEBOUNCE` come from the build configuration (`config.h`,
  `-DDEBOUNCE=...`), so they are parameters, gathered in `Config`.  The loop
  index of the source is a `uint8_t`, so a build has `MATRIX_ROWS ≤ 255`; under
  that bound the index never wraps and the loops are the folds over
  `List.range MATRIX_ROWS` written here.
* `debouncing` is a `uint8_t`, a natural number below 256: the assignment
  `debouncing = DEBOUNCE` stores `DEBOUNCE % 256` and the decrement `--debouncing`
  stores `(debouncing + 255) % 256`.
* `select_row`, `_delay_us`, `unselect_rows` and the `debug` calls only touch the
  I/O registers and the debug console, not the three filter variables.  The value
  `read_cols()` returns while row `i` is selected is the raw sample of row `i`;
  a scan pass takes these samples as a map `raw` from row index to bitmask.
* The I/O registers are a second component of the machine state, `Regs`.  The
  driver functions `select_row`, `unselect_rows` and `read_cols` of `matrix.c` and
  `led_set` of `led.c` act on it; `matrix_init_regs` and `matrix_scan_regs` are the
  register writes of `matrix_init` and `matrix_scan`, which do not depend on the
  filter variables.
-/

namespace Uni122

/-- Build configuration: the macros `MATRIX_ROWS` and `DEBOUNCE`. -/
structure Config where
  MATRIX_ROWS : Nat
  DEBOUNCE : Nat

/-- The file-scope variables of `matrix.c`: the committed matrix `matrix`, the
pending matrix `matrix_debouncing` and the shared counter `debouncing`. -/
structure State where
  matrix : Nat → Nat
  matrix_debouncing : Nat → Nat
  debouncing : Nat

/-- Array store `a[i] = v`. -/
def write (a : Nat → Nat) (i v : Nat) : Nat → Nat :=
  fun j => if j = i then v else a j

/-- State at power-on, as set by the static initialisers:
`static uint8_t debouncing = DEBOUNCE;` and the two zero-initialised arrays. -/
def power_on (cfg : Config) : State :=
  { matrix := fun _ => 0
    matrix_debouncing := fun _ => 0
    debouncing := cfg.DEBOUNCE % 256 }

/-- Body of the loop of `matrix_init`: `matrix[i] = 0; matrix_debouncing[i] = 0;`. -/
def init_row (s : State) (i : Nat) : State :=
  { s with
    matrix := write s.matrix i 0
    matrix_debouncing := write s.matrix_debouncing i 0 }

/-- The function `matrix_init` on the filter variables: the loop
`for (uint8_t i=0; i < MATRIX_ROWS; i++) { matrix[i] = 0; matrix_debouncing[i] = 0; }`.
The statements before the loop write I/O registers only. -/
def matrix_init (cfg : Config) (s : State) : State :=
  (List.range cfg.MATRIX_ROWS).foldl init_row s

/-- Body of the first loop of `matrix_scan` for row `i`, with `cols = raw i`:
`if (matrix_debouncing[i] != cols) { matrix_debouncing[i] = cols; debouncing = DEBOUNCE; }`. -/
def scan_row (cfg : Config) (raw : Nat → Nat) (s : State) (i : Nat) : State :=
  let cols := raw i
  if s.matrix_debouncing i ≠ cols then
    { s with
      matrix_debouncing := write s.matrix_debouncing i cols
      debouncing := cfg.DEBOUNCE % 256 }
  else s

/-- Body of the commit loop of `matrix_scan`: `matrix[i] = matrix_debouncing[i];`. -/
def commit_row (s : State) (i : Nat) : State :=
  { s with matrix := write s.matrix i (s.matrix_debouncing i) }

/-- The function `matrix_scan`: the row loop, then
`if (debouncing) { if (--debouncing) { _delay_ms(1); } else { commit loop } }`,
then `return 1`.  The result is the returned value and the new state. -/
def matrix_scan (cfg : Config) (s : State) (raw : Nat → Nat) : Nat × State :=
  let s1 := (List.range cfg.MATRIX_ROWS).foldl (scan_row cfg raw) s
  let s2 :=
    if s1.debouncing ≠ 0 then
      let s1d := { s1 with debouncing := (s1.debouncing + 255) % 256 }
      if s1d.debouncing ≠ 0 then s1d
      else (List.range cfg.MATRIX_ROWS).foldl commit_row s1d
    else s1
  (1, s2)

/-- The function `matrix_get_row`: `return matrix[row];`. -/
def matrix_get_row (s : State) (row : Nat) : Nat :=
  s.matrix row

/-- State after one `matrix_scan` pass. -/
def scan (cfg : Config) (s : State) (raw : Nat → Nat) : State :=
  (matrix_scan cfg s raw).2

/-- State after a sequence of `matrix_scan` passes, one raw sample map per pass. -/
def scans (cfg : Config) : State → List (Nat → Nat) → State
  | s, [] => s
  | s, raw :: rest => scans cfg (scan cfg s raw) rest

/-- A pass observes a raw change: some row's sample differs from the pending value
stored for that row (the test `matrix_debouncing[i] != cols` succeeds for some row). -/
def changed (cfg : Config) (s : State) (raw : Nat → Nat) : Prop :=
  ∃ i, i < cfg.MATRIX_ROWS ∧ raw i ≠ s.matrix_debouncing i

instance changedDecidable (cfg : Config) (s : State) (raw : Nat → Nat) :
    Decidable (changed cfg s raw) :=
  inferInstanceAs (Decidable (∃ i, i < cfg.MATRIX_ROWS ∧ raw i ≠ s.matrix_debouncing i))

/-- Every pass of the sequence, run from `s`, observes no raw change. -/
def quiet (cfg : Config) : State → List (Nat → Nat) → Prop
  | _, [] => True
  | s, raw :: rest => ¬ changed cfg s raw ∧ quiet cfg (scan cfg s raw) rest

instance quietDecidable (cfg : Config) :
    (s : State) → (rs : List (Nat → Nat)) → Decidable (quiet cfg s rs)
  | _, [] => isTrue trivial
  | s, raw :: rest =>
    have := quietDecidable cfg (scan cfg s raw) rest
    inferInstanceAs (Decidable (¬ changed cfg s raw ∧ quiet cfg (scan cfg s raw) rest))

/-! ### The debounce filter as the specification words it

`spec_observe` and `spec_tick` follow the specification's description of the
filter operations `observe` and `tick`; `spec_scan` is the scanner's pass built from
them.  They are compared with `matrix_scan`, which is translated from the source. -/

/-- Specification: `observe(row, raw_bitmask)`: if `raw_bitmask != pending[row]`, set
`pending[row] = raw_bitmask` and reset the debounce counter to `threshold`; if equal,
no state change. -/
def spec_observe (cfg : Config) (s : State) (row bitmask : Nat) : State :=
  if bitmask ≠ s.matrix_debouncing row then
    { matrix := s.matrix
      matrix_debouncing := fun j => if j = row then bitmask else s.matrix_debouncing j
      debouncing := cfg.DEBOUNCE }
  else s

/-- Specification: `tick()`: if counter > 0, decrement it; if the decrement brings it
to 0, copy pending to committed in full (all `MATRIX_ROWS` rows at once); if the
counter is already 0, no action. -/
def spec_tick (cfg : Config) (s : State) : State :=
  if 0 < s.debouncing then
    if s.debouncing - 1 = 0 then
      { matrix := fun j => if j < cfg.MATRIX_ROWS then s.matrix_debouncing j else s.matrix j
        matrix_debouncing := s.matrix_debouncing
        debouncing := 0 }
    else
      { matrix := s.matrix
        matrix_debouncing := s.matrix_debouncing
        debouncing := s.debouncing - 1 }
  else s

/-- Specification: one pass observes rows `0 .. n-1` in ascending order. -/
def spec_observe_rows (cfg : Config) (raw : Nat → Nat) (s : State) : Nat → State
  | 0 => s
  | n + 1 => spec_observe cfg (spec_observe_rows cfg raw s n) n (raw n)

/-- Specification: `scan()`: observe every row in ascending order, then one `tick`. -/
def spec_scan (cfg : Config) (s : State) (raw : Nat → Nat) : State :=
  spec_tick cfg (spec_observe_rows cfg raw s cfg.MATRIX_ROWS)

/-- States reachable from power-on by calls of `matrix_init` and `matrix_scan`. -/
inductive Reachable (cfg : Config) : State → Prop
  | boot : Reachable cfg (power_on cfg)
  | init (s : State) : Reachable cfg s → Reachable cfg (matrix_init cfg s)
  | pass (s : State) (raw : Nat → Nat) : Reachable cfg s → Reachable cfg (scan cfg s raw)

/-! ### Concrete inputs

The scenario of two rows and a threshold of three passes. -/

/-- Build with `MATRIX_ROWS = 2` and `DEBOUNCE = 3`. -/
def cfg23 : Config := { MATRIX_ROWS := 2, DEBOUNCE := 3 }

/-- Raw samples of a pass with row 0 reading `0b0001` and every other row reading 0. -/
def press0 : Nat → Nat := fun i => if i = 0 then 1 else 0

/-- Raw samples of a pass with every row reading 0 (all keys released). -/
def released : Nat → Nat := fun _ => 0

/-- A counting state: nothing committed, row 1 pending with value 5, counter 1. -/
def counting15 : State :=
  { matrix := fun _ => 0
    matrix_debouncing := fun i => if i = 1 then 5 else 0
    debouncing := 1 }

/-- Raw samples of a pass with row 0 reading 1, row 1 reading 5 and the rest 0. -/
def press0_hold1 : Nat → Nat := fun i => if i = 0 then 1 else if i = 1 then 5 else 0

/-- A settled state: counter 0, committed and pending both zero. -/
def settled0 : State :=
  { matrix := fun _ => 0
    matrix_debouncing := fun _ => 0
    debouncing := 0 }

/-! ### The I/O registers

The port registers written by `matrix.c` and `led.c` are 8-bit registers, held as
natural numbers; bit `k` of a register `x` is `x.testBit k`.  For an 8-bit `x` and an
8-bit mask `m`, `x |= m` stores `x ||| m`, `x &= m` stores `x &&& m`, and `x &= ~m`
stores `x &&& (255 ^^^ m)`.  `PINC` and `PINF` are inputs, read by `read_cols`. -/

/-- The registers written by `matrix_init`, `select_row`, `unselect_rows` and
`led_set`. -/
structure Regs where
  DDRB : Nat
  PORTB : Nat
  DDRC : Nat
  PORTC : Nat
  DDRD : Nat
  PORTD : Nat
  DDRE : Nat
  PORTE : Nat
  DDRF : Nat
  PORTF : Nat
  MCUCR : Nat

/-- The function `read_cols` of `matrix.c`, on the values read from `PINC` and `PINF`:
`(PINC&(1<<4) ? 0 : (1<<0)) | ... | (PINF&(1<<7) ? 0 : (1<<7))`. -/
def read_cols (PINC PINF : Nat) : Nat :=
  (if PINC &&& (1 <<< 4) ≠ 0 then 0 else (1 <<< 0)) |||
  (if PINC &&& (1 <<< 5) ≠ 0 then 0 else (1 <<< 1)) |||
  (if PINC &&& (1 <<< 6) ≠ 0 then 0 else (1 <<< 2)) |||
  (if PINC &&& (1 <<< 7) ≠ 0 then 0 else (1 <<< 3)) |||
  (if PINF &&& (1 <<< 4) ≠ 0 then 0 else (1 <<< 4)) |||
  (if PINF &&& (1 <<< 5) ≠ 0 then 0 else (1 <<< 5)) |||
  (if PINF &&& (1 <<< 6) ≠ 0 then 0 else (1 <<< 6)) |||
  (if PINF &&& (1 <<< 7) ≠ 0 then 0 else (1 <<< 7))

/-- The function `unselect_rows` of `matrix.c`: the `DDR` lines are `&= ~mask`, the
`PORT` lines are `&= mask`, as the source writes them. -/
def unselect_rows (r : Regs) : Regs :=
  { r with
    DDRB := r.DDRB &&& (255 ^^^ 0b00011000)
    PORTB := r.PORTB &&& 0b00011000
    DDRC := r.DDRC &&& (255 ^^^ 0b00001111)
    PORTC := r.PORTC &&& 0b00001111
    DDRD := r.DDRD &&& (255 ^^^ 0b10111100)
    PORTD := r.PORTD &&& 0b10111100
    DDRE := r.DDRE &&& (255 ^^^ 0b00000011)
    PORTE := r.PORTE &&& 0b00000011
    DDRF := r.DDRF &&& (255 ^^^ 0b00000111)
    PORTF := r.PORTF &&& 0b00000111 }

/-- The function `select_row` of `matrix.c`: case `row` of the `switch` sets the `DDR`
bit of the row's pin and clears its `PORT` bit; a row above 15 has no case. -/
def select_row (row : Nat) (r : Regs) : Regs :=
  match row with
  | 0 => { r with DDRB := r.DDRB ||| (1 <<< 4), PORTB := r.PORTB &&& (255 ^^^ (1 <<< 4)) }
  | 1 => { r with DDRB := r.DDRB ||| (1 <<< 3), PORTB := r.PORTB &&& (255 ^^^ (1 <<< 3)) }
  | 2 => { r with DDRF := r.DDRF ||| (1 <<< 0), PORTF := r.PORTF &&& (255 ^^^ (1 <<< 0)) }
  | 3 => { r with DDRF := r.DDRF ||| (1 <<< 1), PORTF := r.PORTF &&& (255 ^^^ (1 <<< 1)) }
  | 4 => { r with DDRF := r.DDRF ||| (1 <<< 2), PORTF := r.PORTF &&& (255 ^^^ (1 <<< 2)) }
  | 5 => { r with DDRD := r.DDRD ||| (1 <<< 2), PORTD := r.PORTD &&& (255 ^^^ (1 <<< 2)) }
  | 6 => { r with DDRD := r.DDRD ||| (1 <<< 3), PORTD := r.PORTD &&& (255 ^^^ (1 <<< 3)) }
  | 7 => { r with DDRD := r.DDRD ||| (1 <<< 4), PORTD := r.PORTD &&& (255 ^^^ (1 <<< 4)) }
  | 8 => { r with DDRD := r.DDRD ||| (1 <<< 5), PORTD := r.PORTD &&& (255 ^^^ (1 <<< 5)) }
  | 9 => { r with DDRD := r.DDRD ||| (1 <<< 7), PORTD := r.PORTD &&& (255 ^^^ (1 <<< 7)) }
  | 10 => { r with DDRE := r.DDRE ||| (1 <<< 0), PORTE := r.PORTE &&& (255 ^^^ (1 <<< 0)) }
  | 11 => { r with DDRE := r.DDRE ||| (1 <<< 1), PORTE := r.PORTE &&& (255 ^^^ (1 <<< 1)) }
  | 12 => { r with DDRC := r.DDRC ||| (1 <<< 0), PORTC := r.PORTC &&& (255 ^^^ (1 <<< 0)) }
  | 13 => { r with DDRC := r.DDRC ||| (1 <<< 1), PORTC := r.PORTC &&& (255 ^^^ (1 <<< 1)) }
  | 14 => { r with DDRC := r.DDRC ||| (1 <<< 2), PORTC := r.PORTC &&& (255 ^^^ (1 <<< 2)) }
  | 15 => { r with DDRC := r.DDRC ||| (1 <<< 3), PORTC := r.PORTC &&& (255 ^^^ (1 <<< 3)) }
  | _ => r

/-- Register writes of `matrix_init`: `MCUCR |= (1<<JTD)` twice, `unselect_rows()`,
then the column pins as inputs with pull-up.  `JTD` is a constant of the AVR
headers and is a parameter here. -/
def matrix_init_regs (JTD : Nat) (r : Regs) : Regs :=
  let r1 := { r with MCUCR := r.MCUCR ||| (1 <<< JTD) }
  let r2 := { r1 with MCUCR := r1.MCUCR ||| (1 <<< JTD) }
  let r3 := unselect_rows r2
  let r4 := { r3 with DDRC := r3.DDRC &&& (255 ^^^ 0b11110000) }
  let r5 := { r4 with PORTC := r4.PORTC ||| 0b11110000 }
  let r6 := { r5 with DDRF := r5.DDRF &&& (255 ^^^ 0b11110000) }
  { r6 with PORTF := r6.PORTF ||| 0b11110000 }

/-- Register writes of one iteration of the row loop of `matrix_scan`:
`select_row(i); ... read_cols() ... unselect_rows();`. -/
def scan_row_regs (r : Regs) (i : Nat) : Regs :=
  unselect_rows (select_row i r)

/-- Register writes of `matrix_scan`: the row loop; the tick writes no register. -/
def matrix_scan_regs (cfg : Config) (r : Regs) : Regs :=
  (List.range cfg.MATRIX_ROWS).foldl scan_row_regs r

/-- Registers at the moment `read_cols` is called for row `i` during `matrix_scan`:
rows `0 .. i-1` have been scanned and `select_row(i)` has been called. -/
def regs_at_read (r : Regs) (i : Nat) : Regs :=
  select_row i ((List.range i).foldl scan_row_regs r)

/-- The `DDR` bit of the pin that `select_row` drives for a row; the pins are, for rows
0 to 15: B4 B3 F0 F1 F2 D2 D3 D4 D5 D7 E0 E1 C0 C1 C2 C3. -/
def row_ddr (r : Regs) (row : Nat) : Bool :=
  match row with
  | 0 => r.DDRB.testBit 4
  | 1 => r.DDRB.testBit 3
  | 2 => r.DDRF.testBit 0
  | 3 => r.DDRF.testBit 1
  | 4 => r.DDRF.testBit 2
  | 5 => r.DDRD.testBit 2
  | 6 => r.DDRD.testBit 3
  | 7 => r.DDRD.testBit 4
  | 8 => r.DDRD.testBit 5
  | 9 => r.DDRD.testBit 7
  | 10 => r.DDRE.testBit 0
  | 11 => r.DDRE.testBit 1
  | 12 => r.DDRC.testBit 0
  | 13 => r.DDRC.testBit 1
  | 14 => r.DDRC.testBit 2
  | 15 => r.DDRC.testBit 3
  | _ => false

/-- The `PORT` bit of the pin that `select_row` drives for a row. -/
def row_port (r : Regs) (row : Nat) : Bool :=
  match row with
  | 0 => r.PORTB.testBit 4
  | 1 => r.PORTB.testBit 3
  | 2 => r.PORTF.testBit 0
  | 3 => r.PORTF.testBit 1
  | 4 => r.PORTF.testBit 2
  | 5 => r.PORTD.testBit 2
  | 6 => r.PORTD.testBit 3
  | 7 => r.PORTD.testBit 4
  | 8 => r.PORTD.testBit 5
  | 9 => r.PORTD.testBit 7
  | 10 => r.PORTE.testBit 0
  | 11 => r.PORTE.testBit 1
  | 12 => r.PORTC.testBit 0
  | 13 => r.PORTC.testBit 1
  | 14 => r.PORTC.testBit 2
  | 15 => r.PORTC.testBit 3
  | _ => false

/-- A row is asserting when its pin is an output driven low (`DDR` bit 1, `PORT` bit 0). -/
def asserting (r : Regs) (row : Nat) : Prop :=
  row_ddr r row = true ∧ row_port r row = false

instance assertingDecidable (r : Regs) (row : Nat) : Decidable (asserting r row) :=
  inferInstanceAs (Decidable (row_ddr r row = true ∧ row_port r row = false))

/-- Bit positions of the lock LEDs in the host's LED report: the macros
`USB_LED_NUM_LOCK`, `USB_LED_CAPS_LOCK` and `USB_LED_SCROLL_LOCK` of `led.h`. -/
structure LedBits where
  USB_LED_NUM_LOCK : Nat
  USB_LED_CAPS_LOCK : Nat
  USB_LED_SCROLL_LOCK : Nat

/-- The function `led_set` of `led.c`. -/
def led_set (leds : LedBits) (usb_led : Nat) (r : Regs) : Regs :=
  let r0 := { r with DDRB := r.DDRB ||| ((1 <<< 6) ||| (1 <<< 5) ||| (1 <<< 4)) }
  let r1 :=
    if usb_led &&& (1 <<< leds.USB_LED_CAPS_LOCK) ≠ 0 then
      { r0 with PORTB := r0.PORTB &&& (255 ^^^ (1 <<< 6)) }
    else { r0 with PORTB := r0.PORTB ||| (1 <<< 6) }
  let r2 :=
    if usb_led &&& (1 <<< leds.USB_LED_SCROLL_LOCK) ≠ 0 then
      { r1 with PORTB := r1.PORTB &&& (255 ^^^ (1 <<< 5)) }
    else { r1 with PORTB := r1.PORTB ||| (1 <<< 5) }
  if usb_led &&& (1 <<< leds.USB_LED_NUM_LOCK) ≠ 0 then
    { r2 with PORTB := r2.PORTB &&& (255 ^^^ (1 <<< 4)) }
  else { r2 with PORTB := r2.PORTB ||| (1 <<< 4) }

/-- All registers zero, the reset value of the port registers. -/
def regs0 : Regs :=
  { DDRB := 0, PORTB := 0, DDRC := 0, PORTC := 0, DDRD := 0, PORTD := 0,
    DDRE := 0, PORTE := 0, DDRF := 0, PORTF := 0, MCUCR := 0 }

/-- LED report bits as the keyboard library numbers them: num lock 0, caps lock 1,
scroll lock 2. -/
def leds012 : LedBits :=
  { USB_LED_NUM_LOCK := 0, USB_LED_CAPS_LOCK := 1, USB_LED_SCROLL_LOCK := 2 }

/-- Build with `MATRIX_ROWS = 16` and the default `DEBOUNCE = 10`. -/
def cfg16 : Config := { MATRIX_ROWS := 16, DEBOUNCE := 10 }

/-- Build with `MATRIX_ROWS = 2` and `DEBOUNCE = 0`. -/
def cfg20 : Config := { MATRIX_ROWS := 2, DEBOUNCE := 0 }

/-! ## The loops in closed form -/

theorem write_apply (a : Nat → Nat) (i v j : Nat) :
    write a i v j = if j = i then v else a j := rfl

theorem init_rows_matrix (s : State) (n j : Nat) :
    ((List.range n).foldl init_row s).matrix j = if j < n then 0 else s.matrix j := by
  induction n with
  | zero => simp
  | succ n ih =>
    rw [List.range_succ, List.foldl_append]
    simp only [List.foldl_cons, List.foldl_nil, init_row, write_apply, ih]
    by_cases h1 : j = n
    · subst h1; simp
    · by_cases h2 : j < n
      · have h3 : j < n + 1 := by omega
        simp [h1, h2, h3]
      · have h3 : ¬ j < n + 1 := by omega
        simp [h1, h2, h3]

theorem init_rows_pending (s : State) (n j : Nat) :
    ((List.range n).foldl init_row s).matrix_debouncing j
      = if j < n then 0 else s.matrix_debouncing j := by
  induction n with
  | zero => simp
  | succ n ih =>
    rw [List.range_succ, List.foldl_append]
    simp only [List.foldl_cons, List.foldl_nil, init_row, write_apply, ih]
    by_cases h1 : j = n
    · subst h1; simp
    · by_cases h2 : j < n
      · have h3 : j < n + 1 := by omega
        simp [h1, h2, h3]
      · have h3 : ¬ j < n + 1 := by omega
        simp [h1, h2, h3]

theorem init_rows_counter (s : State) (n : Nat) :
    ((List.range n).foldl init_row s).debouncing = s.debouncing := by
  induction n with
  | zero => simp
  | succ n ih =>
    rw [List.range_succ, List.foldl_append]
    simp only [List.foldl_cons, List.foldl_nil, init_row, ih]

theorem scan_rows_matrix (cfg : Config) (raw : Nat → Nat) (s : State) (n : Nat) :
    ((List.range n).foldl (scan_row cfg raw) s).matrix = s.matrix := by
  induction n with
  | zero => simp
  | succ n ih =>
    rw [List.range_succ, List.foldl_append]
    simp only [List.foldl_cons, List.foldl_nil, scan_row]
    split <;> simp [ih]

theorem scan_rows_pending (cfg : Config) (raw : Nat → Nat) (s : State) (n j : Nat) :
    ((List.range n).foldl (scan_row cfg raw) s).matrix_debouncing j
      = if j < n then raw j else s.matrix_debouncing j := by
  induction n with
  | zero => simp
  | succ n ih =>
    rw [List.range_succ, List.foldl_append]
    simp only [List.foldl_cons, List.foldl_nil, scan_row]
    by_cases h1 : j = n
    · subst h1
      split
      · simp [write_apply]
      · next h => simp only [ne_eq, Decidable.not_not] at h; simp [h]
    · have h3 : (j < n + 1) = (j < n) := by
        apply propext; omega
      split
      · simp [write_apply, h1, ih, h3]
      · simp [ih, h3]

theorem scan_rows_counter (cfg : Config) (raw : Nat → Nat) (s : State) (n : Nat) :
    ((List.range n).foldl (scan_row cfg raw) s).debouncing
      = if (∃ i, i < n ∧ raw i ≠ s.matrix_debouncing i) then cfg.DEBOUNCE % 256
        else s.debouncing := by
  induction n with
  | zero => simp
  | succ n ih =>
    rw [List.range_succ, List.foldl_append]
    simp only [List.foldl_cons, List.foldl_nil, scan_row]
    have hn : ((List.range n).foldl (scan_row cfg raw) s).matrix_debouncing n
        = s.matrix_debouncing n := by
      rw [scan_rows_pending]; simp
    rw [hn]
    by_cases hc : s.matrix_debouncing n = raw n
    · have hiff : (∃ i, i < n + 1 ∧ raw i ≠ s.matrix_debouncing i)
          ↔ (∃ i, i < n ∧ raw i ≠ s.matrix_debouncing i) := by
        constructor
        · rintro ⟨i, hi, hne⟩
          have : i ≠ n := by
            rintro rfl; exact hne hc.symm
          exact ⟨i, by omega, hne⟩
        · rintro ⟨i, hi, hne⟩
          exact ⟨i, by omega, hne⟩
      simp only [ne_eq, hc, not_true_eq_false, if_false, ih]
      by_cases hex : ∃ i, i < n ∧ raw i ≠ s.matrix_debouncing i
      · rw [if_pos hex, if_pos (hiff.mpr hex)]
      · rw [if_neg hex, if_neg (fun h => hex (hiff.mp h))]
    · have hex : ∃ i, i < n + 1 ∧ raw i ≠ s.matrix_debouncing i :=
        ⟨n, by omega, fun h => hc h.symm⟩
      simp only [ne_eq, hc, not_false_eq_true, if_true]
      rw [if_pos hex]

theorem commit_rows_matrix (s : State) (n j : Nat) :
    ((List.range n).foldl commit_row s).matrix j
      = if j < n then s.matrix_debouncing j else s.matrix j := by
  induction n with
  | zero => simp
  | succ n ih =>
    rw [List.range_succ, List.foldl_append]
    simp only [List.foldl_cons, List.foldl_nil, commit_row, write_apply]
    have hp : ((List.range n).foldl commit_row s).matrix_debouncing = s.matrix_debouncing := by
      clear ih
      induction n with
      | zero => simp
      | succ n ih2 =>
        rw [List.range_succ, List.foldl_append]
        simp only [List.foldl_cons, List.foldl_nil, commit_row, ih2]
    rw [hp, ih]
    by_cases h1 : j = n
    · subst h1; simp
    · have h3 : (j < n + 1) = (j < n) := by
        apply propext; omega
      simp [h1, h3]

theorem commit_rows_pending (s : State) (n : Nat) :
    ((List.range n).foldl commit_row s).matrix_debouncing = s.matrix_debouncing := by
  induction n with
  | zero => simp
  | succ n ih =>
    rw [List.range_succ, List.foldl_append]
    simp only [List.foldl_cons, List.foldl_nil, commit_row, ih]

theorem commit_rows_counter (s : State) (n : Nat) :
    ((List.range n).foldl commit_row s).debouncing = s.debouncing := by
  induction n with
  | zero => simp
  | succ n ih =>
    rw [List.range_succ, List.foldl_append]
    simp only [List.foldl_cons, List.foldl_nil, commit_row, ih]

/-! ## One pass in closed form -/

/-- Counter value between the row loop and the tick of a pass. -/
theorem scan_rows_counter_changed (cfg : Config) (s : State) (raw : Nat → Nat) :
    ((List.range cfg.MATRIX_ROWS).foldl (scan_row cfg raw) s).debouncing
      = if changed cfg s raw then cfg.DEBOUNCE % 256 else s.debouncing :=
  scan_rows_counter cfg raw s cfg.MATRIX_ROWS

theorem scan_pending (cfg : Config) (s : State) (raw : Nat → Nat) (j : Nat) :
    (scan cfg s raw).matrix_debouncing j
      = if j < cfg.MATRIX_ROWS then raw j else s.matrix_debouncing j := by
  simp only [scan, matrix_scan]
  split
  · split
    · simp [scan_rows_pending]
    · simp [commit_rows_pending, scan_rows_pending]
  · simp [scan_rows_pending]

/-- Counter after a pass, for any counter value before it. -/
theorem scan_counter_u8 (cfg : Config) (s : State) (raw : Nat → Nat) :
    (scan cfg s raw).debouncing
      = if (if changed cfg s raw then cfg.DEBOUNCE % 256 else s.debouncing) = 0 then 0
        else ((if changed cfg s raw then cfg.DEBOUNCE % 256 else s.debouncing) + 255) % 256 := by
  rw [← scan_rows_counter_changed]
  simp only [scan, matrix_scan]
  generalize (List.range cfg.MATRIX_ROWS).foldl (scan_row cfg raw) s = t
  by_cases h0 : t.debouncing = 0
  · rw [if_neg (not_not.mpr h0), if_pos h0, h0]
  · rw [if_pos h0, if_neg h0]
    by_cases h1 : (t.debouncing + 255) % 256 = 0
    · rw [if_neg (not_not.mpr h1), commit_rows_counter]
    · rw [if_pos h1]

/-- Committed matrix after a pass, for any counter value before it. -/
theorem scan_matrix_u8 (cfg : Config) (s : State) (raw : Nat → Nat) (j : Nat) :
    (scan cfg s raw).matrix j
      = if ((if changed cfg s raw then cfg.DEBOUNCE % 256 else s.debouncing) ≠ 0 ∧
            ((if changed cfg s raw then cfg.DEBOUNCE % 256 else s.debouncing) + 255) % 256 = 0)
            ∧ j < cfg.MATRIX_ROWS
        then raw j else s.matrix j := by
  rw [← scan_rows_counter_changed]
  simp only [scan, matrix_scan]
  have hm := scan_rows_matrix cfg raw s cfg.MATRIX_ROWS
  have hp := scan_rows_pending cfg raw s cfg.MATRIX_ROWS j
  generalize (List.range cfg.MATRIX_ROWS).foldl (scan_row cfg raw) s = t at hm hp ⊢
  by_cases h0 : t.debouncing = 0
  · rw [if_neg (not_not.mpr h0), if_neg (fun h => h.1.1 h0), hm]
  · rw [if_pos h0]
    by_cases h1 : (t.debouncing + 255) % 256 = 0
    · rw [if_neg (not_not.mpr h1), commit_rows_matrix]
      by_cases hj : j < cfg.MATRIX_ROWS
      · rw [if_pos hj, if_pos ⟨⟨h0, h1⟩, hj⟩]
        show t.matrix_debouncing j = raw j
        rw [hp, if_pos hj]
      · rw [if_neg hj, if_neg (fun h => hj h.2)]
        show t.matrix j = s.matrix j
        rw [hm]
    · rw [if_pos h1, if_neg (fun h => h1 h.1.2)]
      show t.matrix j = s.matrix j
      rw [hm]

/-- The counter between the row loop and the tick fits in 8 bits when the counter
before the pass does. -/
theorem row_loop_counter_lt (cfg : Config) (s : State) (raw : Nat → Nat)
    (hs : s.debouncing < 256) :
    (if changed cfg s raw then cfg.DEBOUNCE % 256 else s.debouncing) < 256 := by
  split
  · exact Nat.mod_lt _ (by decide)
  · exact hs

/-- Counter after a pass from a state whose counter fits in 8 bits: the decrement of
a counter that is not 0 does not wrap. -/
theorem scan_counter (cfg : Config) (s : State) (raw : Nat → Nat) (hs : s.debouncing < 256) :
    (scan cfg s raw).debouncing
      = (if changed cfg s raw then cfg.DEBOUNCE % 256 else s.debouncing) - 1 := by
  have hlt := row_loop_counter_lt cfg s raw hs
  rw [scan_counter_u8]
  generalize (if changed cfg s raw then cfg.DEBOUNCE % 256 else s.debouncing) = c at hlt ⊢
  split <;> omega

/-- Committed matrix after a pass from a state whose counter fits in 8 bits: the
pending rows are copied exactly when the counter stood at 1 after the row loop. -/
theorem scan_matrix (cfg : Config) (s : State) (raw : Nat → Nat) (hs : s.debouncing < 256)
    (j : Nat) :
    (scan cfg s raw).matrix j
      = if (if changed cfg s raw then cfg.DEBOUNCE % 256 else s.debouncing) = 1
            ∧ j < cfg.MATRIX_ROWS
        then raw j else s.matrix j := by
  have hlt := row_loop_counter_lt cfg s raw hs
  rw [scan_matrix_u8]
  generalize (if changed cfg s raw then cfg.DEBOUNCE % 256 else s.debouncing) = c at hlt ⊢
  by_cases h1 : c = 1
  · by_cases hj : j < cfg.MATRIX_ROWS
    · rw [if_pos ⟨⟨by omega, by omega⟩, hj⟩, if_pos ⟨h1, hj⟩]
    · rw [if_neg (fun h => hj h.2), if_neg (fun h => hj h.2)]
  · rw [if_neg (fun h => h1 (by omega)), if_neg (fun h => h1 h.1)]

/-- A pass that observes a raw change, from any state: the counter is reloaded and
ticked once, and the pending rows are copied exactly when the reloaded value is 1. -/
theorem scan_of_changed (cfg : Config) (s : State) (raw : Nat → Nat)
    (h : changed cfg s raw) :
    (scan cfg s raw).debouncing = cfg.DEBOUNCE % 256 - 1 ∧
    ∀ j, (scan cfg s raw).matrix j
      = if cfg.DEBOUNCE % 256 = 1 ∧ j < cfg.MATRIX_ROWS then raw j else s.matrix j := by
  have hlt : cfg.DEBOUNCE % 256 < 256 := Nat.mod_lt _ (by decide)
  refine ⟨?_, ?_⟩
  · rw [scan_counter_u8, if_pos h]
    split <;> omega
  · intro j
    rw [scan_matrix_u8, if_pos h]
    by_cases h1 : cfg.DEBOUNCE % 256 = 1
    · by_cases hj : j < cfg.MATRIX_ROWS
      · rw [if_pos ⟨⟨by omega, by omega⟩, hj⟩, if_pos ⟨h1, hj⟩]
      · rw [if_neg (fun hc => hj hc.2), if_neg (fun hc => hj hc.2)]
    · rw [if_neg (fun hc => h1 (by omega)), if_neg (fun hc => h1 hc.1)]

/-- A pass that observes no change leaves the pending matrix as it was. -/
theorem scan_pending_of_not_changed (cfg : Config) (s : State) (raw : Nat → Nat)
    (h : ¬ changed cfg s raw) :
    (scan cfg s raw).matrix_debouncing = s.matrix_debouncing := by
  funext j
  rw [scan_pending]
  by_cases hj : j < cfg.MATRIX_ROWS
  · rw [if_pos hj]
    by_contra hne
    exact h ⟨j, hj, hne⟩
  · rw [if_neg hj]

/-- Whatever the counter, a pass that observes no change leaves each committed row as
it was or gives it the pending value of that row. -/
theorem scan_matrix_of_not_changed (cfg : Config) (s : State) (raw : Nat → Nat)
    (h : ¬ changed cfg s raw) (j : Nat) :
    (scan cfg s raw).matrix j = s.matrix j ∨
      (j < cfg.MATRIX_ROWS ∧ (scan cfg s raw).matrix j = s.matrix_debouncing j) := by
  rw [scan_matrix_u8, if_neg h]
  by_cases hc : (s.debouncing ≠ 0 ∧ (s.debouncing + 255) % 256 = 0) ∧ j < cfg.MATRIX_ROWS
  · right
    rw [if_pos hc]
    refine ⟨hc.2, ?_⟩
    by_contra hne
    exact h ⟨j, hc.2, hne⟩
  · left
    rw [if_neg hc]

/-! ## Quiet passes and the invariant of reachable states -/

/-- One pass without a raw change, from a state whose counter fits in 8 bits: the
counter counts down (staying at 0) and the committed matrix takes the pending rows
exactly when the counter was 1. -/
theorem scan_quiet (cfg : Config) (s : State) (raw : Nat → Nat) (hs : s.debouncing < 256)
    (h : ¬ changed cfg s raw) :
    (scan cfg s raw).matrix_debouncing = s.matrix_debouncing ∧
    (scan cfg s raw).debouncing = s.debouncing - 1 ∧
    ∀ j, (scan cfg s raw).matrix j
      = if s.debouncing = 1 ∧ j < cfg.MATRIX_ROWS then s.matrix_debouncing j else s.matrix j := by
  refine ⟨scan_pending_of_not_changed cfg s raw h, ?_, ?_⟩
  · rw [scan_counter cfg s raw hs, if_neg h]
  · intro j
    rw [scan_matrix cfg s raw hs, if_neg h]
    by_cases hc : s.debouncing = 1 ∧ j < cfg.MATRIX_ROWS
    · rw [if_pos hc, if_pos hc]
      by_contra hne
      exact h ⟨j, hc.2, hne⟩
    · rw [if_neg hc, if_neg hc]

/-- A run of passes without a raw change: the pending matrix stays, the counter
counts down, and the committed matrix takes the pending rows once the counter,
if it was positive, has reached 0. -/
theorem scans_quiet (cfg : Config) (rs : List (Nat → Nat)) :
    ∀ s : State, s.debouncing < 256 → quiet cfg s rs →
      (scans cfg s rs).matrix_debouncing = s.matrix_debouncing ∧
      (scans cfg s rs).debouncing = s.debouncing - rs.length ∧
      ∀ j, (scans cfg s rs).matrix j
        = if 0 < s.debouncing ∧ s.debouncing ≤ rs.length ∧ j < cfg.MATRIX_ROWS
          then s.matrix_debouncing j else s.matrix j := by
  induction rs with
  | nil =>
    intro s _ _
    refine ⟨rfl, by simp [scans], ?_⟩
    intro j
    have : ¬ (0 < s.debouncing ∧ s.debouncing ≤ ([] : List (Nat → Nat)).length
        ∧ j < cfg.MATRIX_ROWS) := by
      simp only [List.length_nil]; omega
    rw [if_neg this]; rfl
  | cons raw rest ih =>
    intro s hs hq
    obtain ⟨h1, h2⟩ := hq
    obtain ⟨hp, hc, hm⟩ := scan_quiet cfg s raw hs h1
    obtain ⟨ip, ic, im⟩ := ih (scan cfg s raw) (by rw [hc]; omega) h2
    refine ⟨?_, ?_, ?_⟩
    · show (scans cfg (scan cfg s raw) rest).matrix_debouncing = _
      rw [ip, hp]
    · show (scans cfg (scan cfg s raw) rest).debouncing = _
      rw [ic, hc, List.length_cons]; omega
    · intro j
      show (scans cfg (scan cfg s raw) rest).matrix j = _
      rw [im, hc, hp, hm, List.length_cons]
      by_cases hj : j < cfg.MATRIX_ROWS
      · rcases Nat.lt_trichotomy s.debouncing 1 with h0 | h0 | h0
        · have e0 : s.debouncing = 0 := by omega
          simp [e0]
        · simp [h0, hj]
        · have a1 : ¬ (s.debouncing = 1 ∧ j < cfg.MATRIX_ROWS) := by omega
          rw [if_neg a1]
          by_cases hl : s.debouncing ≤ rest.length + 1
          · rw [if_pos ⟨by omega, by omega, hj⟩, if_pos ⟨by omega, hl, hj⟩]
          · rw [if_neg (by omega), if_neg (by omega)]
      · rw [if_neg (by omega), if_neg (by omega), if_neg (by omega)]

/-- Invariant of the filter: the counter is at most `DEBOUNCE`, and a counter of 0
means that the committed rows equal the pending rows. -/
theorem reachable_inv (cfg : Config) (hD : 0 < cfg.DEBOUNCE) (h8 : cfg.DEBOUNCE < 256)
    (s : State) (hr : Reachable cfg s) :
    s.debouncing ≤ cfg.DEBOUNCE ∧
    (s.debouncing = 0 → ∀ j, j < cfg.MATRIX_ROWS → s.matrix j = s.matrix_debouncing j) := by
  have hmod : cfg.DEBOUNCE % 256 = cfg.DEBOUNCE := Nat.mod_eq_of_lt h8
  induction hr with
  | boot =>
    refine ⟨?_, ?_⟩
    · simp [power_on, hmod]
    · intro _ j _; rfl
  | init s _ ih =>
    refine ⟨?_, ?_⟩
    · simp only [matrix_init, init_rows_counter]; exact ih.1
    · intro _ j hj
      simp only [matrix_init, init_rows_matrix, init_rows_pending, if_pos hj]
  | pass s raw _ ih =>
    have hs : s.debouncing < 256 := by omega
    refine ⟨?_, ?_⟩
    · rw [scan_counter cfg s raw hs, hmod]
      split <;> omega
    · intro h0 j hj
      rw [scan_counter cfg s raw hs, hmod] at h0
      rw [scan_matrix cfg s raw hs, scan_pending, hmod, if_pos hj]
      by_cases hc : changed cfg s raw
      · rw [if_pos hc] at h0 ⊢
        have : cfg.DEBOUNCE = 1 := by omega
        rw [if_pos ⟨this, hj⟩]
      · rw [if_neg hc] at h0 ⊢
        by_cases h1 : s.debouncing = 1
        · rw [if_pos ⟨h1, hj⟩]
        · rw [if_neg (by omega)]
          have hz : s.debouncing = 0 := by omega
          rw [ih.2 hz j hj]
          by_contra hne
          exact hc ⟨j, hj, fun h => hne h.symm⟩

/-! ## Sequences of passes -/

theorem scans_append (cfg : Config) (rs ts : List (Nat → Nat)) :
    ∀ s : State, scans cfg s (rs ++ ts) = scans cfg (scans cfg s rs) ts := by
  induction rs with
  | nil => intro s; rfl
  | cons raw rest ih => intro s; exact ih (scan cfg s raw)

theorem quiet_append (cfg : Config) (rs ts : List (Nat → Nat)) :
    ∀ s : State, quiet cfg s (rs ++ ts) ↔ quiet cfg s rs ∧ quiet cfg (scans cfg s rs) ts := by
  induction rs with
  | nil => intro s; simp [quiet, scans]
  | cons raw rest ih =>
    intro s
    show (¬ changed cfg s raw ∧ quiet cfg (scan cfg s raw) (rest ++ ts)) ↔
      (¬ changed cfg s raw ∧ quiet cfg (scan cfg s raw) rest) ∧
        quiet cfg (scans cfg (scan cfg s raw) rest) ts
    rw [ih]
    exact and_assoc.symm

theorem quiet_take (cfg : Config) (rs : List (Nat → Nat)) (k : Nat) (s : State)
    (h : quiet cfg s rs) : quiet cfg s (rs.take k) := by
  have h2 : quiet cfg s (rs.take k ++ rs.drop k) := by
    rw [List.take_append_drop]; exact h
  exact ((quiet_append cfg _ _ s).mp h2).1

/-- A pass that observes a raw change restarts the counter and, for a threshold
other than 1, leaves the committed matrix alone. -/
theorem scan_changed (cfg : Config) (h8 : cfg.DEBOUNCE < 256) (s : State) (raw : Nat → Nat)
    (h : changed cfg s raw) :
    (scan cfg s raw).debouncing = cfg.DEBOUNCE - 1 ∧
    (cfg.DEBOUNCE ≠ 1 → (scan cfg s raw).matrix = s.matrix) := by
  have hmod : cfg.DEBOUNCE % 256 = cfg.DEBOUNCE := Nat.mod_eq_of_lt h8
  obtain ⟨hc, hm⟩ := scan_of_changed cfg s raw h
  refine ⟨by rw [hc, hmod], ?_⟩
  intro h1
  funext j
  rw [hm j, hmod, if_neg (fun hc => h1 hc.1)]

/-! ## Claims -/

/-- C1 (settle invariant).  In a state reachable from power-on by `matrix_init` and
`matrix_scan` calls, with `1 ≤ DEBOUNCE ≤ 255`: if `DEBOUNCE` consecutive passes
observe no raw change, then after that window every committed row equals the
pending row at the start of the window, and any further passes that observe no raw
change leave the committed matrix unchanged. -/
theorem settle_invariant (cfg : Config) (hD : 0 < cfg.DEBOUNCE) (h8 : cfg.DEBOUNCE < 256)
    (s : State) (hr : Reachable cfg s) (window : List (Nat → Nat))
    (hlen : window.length = cfg.DEBOUNCE) (hq : quiet cfg s window) :
    (∀ j, j < cfg.MATRIX_ROWS → (scans cfg s window).matrix j = s.matrix_debouncing j) ∧
    ∀ further : List (Nat → Nat), quiet cfg (scans cfg s window) further →
      (scans cfg (scans cfg s window) further).matrix = (scans cfg s window).matrix := by
  obtain ⟨hle, hsync⟩ := reachable_inv cfg hD h8 s hr
  have hs : s.debouncing < 256 := by omega
  obtain ⟨_, hc, hm⟩ := scans_quiet cfg window s hs hq
  refine ⟨?_, ?_⟩
  · intro j hj
    rw [hm j]
    by_cases h0 : s.debouncing = 0
    · rw [if_neg (by omega)]
      exact hsync h0 j hj
    · rw [if_pos ⟨by omega, by omega, hj⟩]
  · intro further hf
    obtain ⟨_, _, fm⟩ := scans_quiet cfg further (scans cfg s window) (by rw [hc]; omega) hf
    funext j
    rw [fm j, hc, hlen]
    rw [if_neg (by omega)]

/-- Witness of C1: two rows, threshold 3; after one pass that sees row 0 pressed,
three passes with the same samples commit the press, and a fourth keeps it. -/
theorem settle_invariant_witness :
    (scans cfg23 (scan cfg23 (power_on cfg23) press0) [press0, press0, press0]).matrix 0
        = (scan cfg23 (power_on cfg23) press0).matrix_debouncing 0 ∧
    (scans cfg23 (scans cfg23 (scan cfg23 (power_on cfg23) press0) [press0, press0, press0])
        [press0]).matrix
      = (scans cfg23 (scan cfg23 (power_on cfg23) press0) [press0, press0, press0]).matrix :=
  have h := settle_invariant cfg23 (by decide) (by decide)
    (scan cfg23 (power_on cfg23) press0) (Reachable.pass _ press0 Reachable.boot)
    [press0, press0, press0] rfl (by decide)
  ⟨h.1 0 (by decide), h.2 [press0] (by decide)⟩

/-- C2 (no premature commit).  With `DEBOUNCE ≤ 255`, from any state: if a pass
observes a raw change, the passes after it observe none, and the next raw change is
observed fewer than `DEBOUNCE` passes after the first, then `matrix_get_row` returns
for every row, after the first changing pass, after each pass in between and after
the second changing pass, the value it returned before the first changing pass. -/
theorem no_premature_commit (cfg : Config) (h8 : cfg.DEBOUNCE < 256) (s : State)
    (first : Nat → Nat) (between : List (Nat → Nat)) (next : Nat → Nat)
    (hfirst : changed cfg s first)
    (hbetween : quiet cfg (scan cfg s first) between)
    (hnext : changed cfg (scans cfg (scan cfg s first) between) next)
    (hlt : between.length + 1 < cfg.DEBOUNCE) :
    (∀ k, k ≤ between.length → ∀ row,
      matrix_get_row (scans cfg (scan cfg s first) (between.take k)) row
        = matrix_get_row s row) ∧
    ∀ row, matrix_get_row (scan cfg (scans cfg (scan cfg s first) between) next) row
      = matrix_get_row s row := by
  obtain ⟨hc, hm⟩ := scan_changed cfg h8 s first hfirst
  have hm1 := hm (by omega)
  have key : ∀ k, k ≤ between.length →
      (scans cfg (scan cfg s first) (between.take k)).matrix = s.matrix := by
    intro k hk
    obtain ⟨_, _, qm⟩ := scans_quiet cfg (between.take k) (scan cfg s first)
      (by rw [hc]; omega) (quiet_take cfg between k _ hbetween)
    funext j
    rw [qm j, hc, List.length_take, if_neg (by omega), hm1]
  refine ⟨fun k hk row => by simp only [matrix_get_row, key k hk], ?_⟩
  intro row
  obtain ⟨_, hm2⟩ := scan_changed cfg h8 _ next hnext
  have hfull := key between.length (Nat.le_refl _)
  rw [List.take_length] at hfull
  simp only [matrix_get_row, hm2 (by omega), hfull]

/-- Witness of C2: threshold 3; row 0 is pressed, stays pressed for one pass and is
released in the next; row 0 reads as before throughout. -/
theorem no_premature_commit_witness :
    matrix_get_row (scans cfg23 (scan cfg23 (power_on cfg23) press0) ([press0].take 1)) 0
        = matrix_get_row (power_on cfg23) 0 ∧
    matrix_get_row (scan cfg23 (scans cfg23 (scan cfg23 (power_on cfg23) press0) [press0])
        released) 0 = matrix_get_row (power_on cfg23) 0 :=
  have h := no_premature_commit cfg23 (by decide) (power_on cfg23) press0 [press0] released
    (by decide) (by decide) (by decide) (by decide)
  ⟨h.1 1 (by decide) 0, h.2 0⟩

/-- C3, as stated, fails: the claim has committed `[0, 0]` and the counter at 1 after
scan 3, and the commit in scan 4.  In the code the pass that observes the change
already ticks the counter, so after scan 3 the counter is 0 and row 0 is committed. -/
theorem scenario_counterexample :
    ¬ ((scans cfg23 (power_on cfg23) [press0, press0, press0]).matrix 0 = 0 ∧
       (scans cfg23 (power_on cfg23) [press0, press0, press0]).debouncing = 1) := by
  decide

/-- C3 (scenario, amended).  `MATRIX_ROWS = 2`, `DEBOUNCE = 3`, from power-on.
Scan 1 (row 0 reads `0b0001`): committed `[0, 0]`, counter 2 after the pass.
Scan 2 (same samples): committed `[0, 0]`, counter 1.
Scan 3: counter 0 and committed becomes `[1, 0]`.  Scan 4: nothing changes.
Scan 5 (row 0 reads 0): counter 2 after the pass, committed `[1, 0]`.
Scan 6 (samples stay 0): committed `[1, 0]`, counter 1.
Scan 7: counter 0 and committed becomes `[0, 0]`. -/
theorem scenario_trace :
    ((power_on cfg23).matrix 0 = 0 ∧ (power_on cfg23).matrix 1 = 0 ∧
      (power_on cfg23).matrix_debouncing 0 = 0 ∧ (power_on cfg23).matrix_debouncing 1 = 0 ∧
      (power_on cfg23).debouncing = 3) ∧
    ((scans cfg23 (power_on cfg23) [press0]).matrix 0 = 0 ∧
      (scans cfg23 (power_on cfg23) [press0]).matrix 1 = 0 ∧
      (scans cfg23 (power_on cfg23) [press0]).debouncing = 2) ∧
    ((scans cfg23 (power_on cfg23) [press0, press0]).matrix 0 = 0 ∧
      (scans cfg23 (power_on cfg23) [press0, press0]).matrix 1 = 0 ∧
      (scans cfg23 (power_on cfg23) [press0, press0]).debouncing = 1) ∧
    ((scans cfg23 (power_on cfg23) [press0, press0, press0]).matrix 0 = 1 ∧
      (scans cfg23 (power_on cfg23) [press0, press0, press0]).matrix 1 = 0 ∧
      (scans cfg23 (power_on cfg23) [press0, press0, press0]).debouncing = 0) ∧
    ((scans cfg23 (power_on cfg23) [press0, press0, press0, press0]).matrix 0 = 1 ∧
      (scans cfg23 (power_on cfg23) [press0, press0, press0, press0]).matrix 1 = 0 ∧
      (scans cfg23 (power_on cfg23) [press0, press0, press0, press0]).debouncing = 0) ∧
    ((scans cfg23 (power_on cfg23) [press0, press0, press0, press0, released]).matrix 0 = 1 ∧
      (scans cfg23 (power_on cfg23) [press0, press0, press0, press0, released]).matrix 1 = 0 ∧
      (scans cfg23 (power_on cfg23)
        [press0, press0, press0, press0, released]).debouncing = 2) ∧
    ((scans cfg23 (power_on cfg23)
        [press0, press0, press0, press0, released, released]).matrix 0 = 1 ∧
      (scans cfg23 (power_on cfg23)
        [press0, press0, press0, press0, released, released]).matrix 1 = 0 ∧
      (scans cfg23 (power_on cfg23)
        [press0, press0, press0, press0, released, released]).debouncing = 1) ∧
    ((scans cfg23 (power_on cfg23)
        [press0, press0, press0, press0, released, released, released]).matrix 0 = 0 ∧
      (scans cfg23 (power_on cfg23)
        [press0, press0, press0, press0, released, released, released]).matrix 1 = 0 ∧
      (scans cfg23 (power_on cfg23)
        [press0, press0, press0, press0, released, released, released]).debouncing = 0) := by
  decide

/-- After a pass that left the counter at `DEBOUNCE - 1`, as a pass that observes a raw
change does: as long as the further passes hold no `DEBOUNCE - 1` consecutive passes
without a raw change, nothing is committed, and the counter is `DEBOUNCE - 1` less
the number of passes without a raw change at the end of the run. -/
theorem scans_no_quiet_run (cfg : Config) (h8 : cfg.DEBOUNCE < 256) (s1 : State)
    (h1 : 0 < s1.debouncing) (hc : s1.debouncing + 1 = cfg.DEBOUNCE)
    (rest : List (Nat → Nat)) :
    (∀ a b c : List (Nat → Nat), rest = a ++ b ++ c → b.length + 1 = cfg.DEBOUNCE →
      ¬ quiet cfg (scans cfg s1 a) b) →
    (scans cfg s1 rest).matrix = s1.matrix ∧
    ∃ a b : List (Nat → Nat), rest = a ++ b ∧ quiet cfg (scans cfg s1 a) b ∧
      0 < (scans cfg s1 rest).debouncing ∧
      (scans cfg s1 rest).debouncing + b.length + 1 = cfg.DEBOUNCE := by
  induction rest using List.reverseRecOn with
  | nil =>
    intro _
    exact ⟨rfl, [], [], rfl, trivial, h1, by simpa using hc⟩
  | append_singleton rest r ih =>
    intro hno
    have hno1 : ∀ a b c : List (Nat → Nat), rest = a ++ b ++ c →
        b.length + 1 = cfg.DEBOUNCE → ¬ quiet cfg (scans cfg s1 a) b := by
      intro a b c h hl
      exact hno a b (c ++ [r]) (by rw [h, List.append_assoc (a ++ b)]) hl
    obtain ⟨hm, a, b, hab, hq, hpos, hcnt⟩ := ih hno1
    have hstep : scans cfg s1 (rest ++ [r]) = scan cfg (scans cfg s1 rest) r := by
      rw [scans_append]; rfl
    rw [hstep]
    by_cases hch : changed cfg (scans cfg s1 rest) r
    · obtain ⟨cc, cm⟩ := scan_changed cfg h8 (scans cfg s1 rest) r hch
      refine ⟨by rw [cm (by omega), hm], rest ++ [r], [], by simp, trivial, by omega, ?_⟩
      rw [cc, List.length_nil]; omega
    · obtain ⟨_, qc, qm⟩ := scan_quiet cfg (scans cfg s1 rest) r (by omega) hch
      have hstate : scans cfg (scans cfg s1 a) b = scans cfg s1 rest := by
        rw [hab, scans_append]
      have hq2 : quiet cfg (scans cfg s1 a) (b ++ [r]) := by
        rw [quiet_append]
        refine ⟨hq, ?_, trivial⟩
        rw [hstate]; exact hch
      have hlen : ¬ (b ++ [r]).length + 1 = cfg.DEBOUNCE := by
        intro hl
        exact hno a (b ++ [r]) [] (by rw [hab]; simp) hl hq2
      rw [List.length_append, List.length_singleton] at hlen
      refine ⟨?_, a, b ++ [r], by rw [hab, List.append_assoc], hq2, by omega, ?_⟩
      · funext j
        rw [qm j, if_neg (by omega), hm]
      · rw [qc, List.length_append, List.length_singleton]; omega

/-- C4, as stated, fails: threshold 3, counter 1, row 1 settled with pending value 5
and nothing committed.  A pass changes row 0 while row 1 keeps its sample; two
passes without any raw change follow, fewer than the `DEBOUNCE` passes of a full
window without raw change, and after them row 1 is committed. -/
theorem global_reset_counterexample :
    (0 < counting15.debouncing ∧
      press0_hold1 0 ≠ counting15.matrix_debouncing 0 ∧
      press0_hold1 1 = counting15.matrix_debouncing 1) ∧
    quiet cfg23 (scan cfg23 counting15 press0_hold1) [press0_hold1, press0_hold1] ∧
    [press0_hold1, press0_hold1].length < cfg23.DEBOUNCE ∧
    ¬ ((scans cfg23 (scan cfg23 counting15 press0_hold1)
          [press0_hold1, press0_hold1]).matrix 1 = counting15.matrix 1) := by
  decide

/-- C4 (global reset, amended).  With `2 ≤ DEBOUNCE ≤ 255`, from any state (so also
with the counter at 1): a pass in which some row `i` reads a sample other than its
pending value sets the counter to `DEBOUNCE - 1` and leaves every committed row
unchanged; the committed matrix stays unchanged during any further passes that hold
no `DEBOUNCE - 1` consecutive passes without a raw change; and when the
`DEBOUNCE - 1` passes after the changing pass observe no raw change, the last of them
commits the samples of the changing pass on every row. -/
theorem global_reset (cfg : Config) (hD : 2 ≤ cfg.DEBOUNCE) (h8 : cfg.DEBOUNCE < 256)
    (s : State) (raw : Nat → Nat) (i : Nat) (hi : i < cfg.MATRIX_ROWS)
    (hne : raw i ≠ s.matrix_debouncing i) :
    (scan cfg s raw).debouncing = cfg.DEBOUNCE - 1 ∧
    (scan cfg s raw).matrix = s.matrix ∧
    (∀ rest : List (Nat → Nat),
      (∀ a b c : List (Nat → Nat), rest = a ++ b ++ c → b.length + 1 = cfg.DEBOUNCE →
        ¬ quiet cfg (scans cfg (scan cfg s raw) a) b) →
      (scans cfg (scan cfg s raw) rest).matrix = s.matrix) ∧
    (∀ rest : List (Nat → Nat), quiet cfg (scan cfg s raw) rest →
      rest.length + 1 = cfg.DEBOUNCE →
      ∀ j, j < cfg.MATRIX_ROWS → (scans cfg (scan cfg s raw) rest).matrix j = raw j) := by
  obtain ⟨hc, hm⟩ := scan_changed cfg h8 s raw ⟨i, hi, hne⟩
  have hm1 := hm (by omega)
  refine ⟨hc, hm1, ?_, ?_⟩
  · intro rest hno
    rw [(scans_no_quiet_run cfg h8 (scan cfg s raw) (by omega) (by omega) rest hno).1, hm1]
  · intro rest hq hlen j hj
    obtain ⟨_, _, qm⟩ := scans_quiet cfg rest (scan cfg s raw) (by omega) hq
    rw [qm j, hc, if_pos ⟨by omega, by omega, hj⟩, scan_pending, if_pos hj]

/-- Witness of C4: threshold 3, counter 1, row 1 pending with value 5; row 0 changes
while row 1 holds its sample.  Nothing is committed in that pass, nor in the next
three passes, of which the second changes row 1 again; holding the first samples for
two passes instead commits them. -/
theorem global_reset_witness :
    (scan cfg23 counting15 press0_hold1).debouncing = cfg23.DEBOUNCE - 1 ∧
    (scan cfg23 counting15 press0_hold1).matrix = counting15.matrix ∧
    (scans cfg23 (scan cfg23 counting15 press0_hold1) [press0_hold1, press0, press0]).matrix
      = counting15.matrix ∧
    (scans cfg23 (scan cfg23 counting15 press0_hold1) [press0_hold1, press0_hold1]).matrix 1
      = press0_hold1 1 :=
  have h := global_reset cfg23 (by decide) (by decide) counting15 press0_hold1 0
    (by decide) (by decide)
  ⟨h.1, h.2.1,
   h.2.2.1 [press0_hold1, press0, press0] (by
    intro a b c hl hb
    have h3 : cfg23.DEBOUNCE = 3 := rfl
    rcases b with _ | ⟨b0, _ | ⟨b1, _ | ⟨b2, b⟩⟩⟩
    · simp only [List.length_nil] at hb
      omega
    · simp only [List.length_cons, List.length_nil] at hb
      omega
    · rcases a with _ | ⟨a0, _ | ⟨a1, a⟩⟩
      · simp only [List.nil_append, List.cons_append, List.cons.injEq] at hl
        obtain ⟨rfl, rfl, _⟩ := hl
        decide
      · simp only [List.nil_append, List.cons_append, List.cons.injEq] at hl
        obtain ⟨rfl, rfl, rfl, _⟩ := hl
        decide
      · have := congrArg List.length hl
        simp only [List.length_cons, List.length_append, List.length_nil] at this
        omega
    · simp only [List.length_cons] at hb
      omega),
   h.2.2.2 [press0_hold1, press0_hold1] (by decide) rfl 1 (by decide)⟩

/-- C5 (idempotence).  In a state with counter 0, a pass whose raw samples equal the
pending value on every row leaves the committed matrix, the pending matrix and the
counter as they were, and so does any number of such passes. -/
theorem scan_idempotent (cfg : Config) (s : State) (raw : Nat → Nat)
    (h0 : s.debouncing = 0)
    (heq : ∀ i, i < cfg.MATRIX_ROWS → raw i = s.matrix_debouncing i) :
    scan cfg s raw = s ∧ ∀ n : Nat, scans cfg s (List.replicate n raw) = s := by
  have hq : ¬ changed cfg s raw := by
    rintro ⟨i, hi, hne⟩
    exact hne (heq i hi)
  have h1 : scan cfg s raw = s := by
    obtain ⟨hp, hc, hm⟩ := scan_quiet cfg s raw (by omega) hq
    have hmat : (scan cfg s raw).matrix = s.matrix := by
      funext j
      rw [hm j, if_neg (by omega)]
    have hcnt : (scan cfg s raw).debouncing = s.debouncing := by
      rw [hc, h0]
    cases hs : scan cfg s raw with
    | mk m p c =>
      rw [hs] at hp hmat hcnt
      cases s
      simp only at hp hmat hcnt
      rw [hp, hmat, hcnt]
  refine ⟨h1, ?_⟩
  intro n
  induction n with
  | zero => rfl
  | succ n ih =>
    show scans cfg (scan cfg s raw) (List.replicate n raw) = s
    rw [h1]; exact ih

/-- Witness of C5: the settled all-zero state scanned with all keys released. -/
theorem scan_idempotent_witness :
    scan cfg23 settled0 released = settled0 ∧
    scans cfg23 settled0 (List.replicate 4 released) = settled0 :=
  have h := scan_idempotent cfg23 settled0 released rfl (fun _ _ => rfl)
  ⟨h.1, h.2 4⟩

/-- C6 (boot behaviour).  After `matrix_init`, called in any state,
`matrix_get_row` is 0 for every row below `MATRIX_ROWS`, and it is still 0 after each
pass of any sequence of passes whose raw samples are all 0, in particular after each
of the first `DEBOUNCE` passes. -/
theorem boot_released (cfg : Config) (s : State) (row : Nat) (hrow : row < cfg.MATRIX_ROWS) :
    matrix_get_row (matrix_init cfg s) row = 0 ∧
    ∀ rs : List (Nat → Nat), (∀ raw ∈ rs, ∀ i, i < cfg.MATRIX_ROWS → raw i = 0) →
      matrix_get_row (scans cfg (matrix_init cfg s) rs) row = 0 := by
  have hinit : ∀ j, j < cfg.MATRIX_ROWS →
      (matrix_init cfg s).matrix j = 0 ∧ (matrix_init cfg s).matrix_debouncing j = 0 := by
    intro j hj
    simp only [matrix_init, init_rows_matrix, init_rows_pending, if_pos hj, and_self]
  refine ⟨(hinit row hrow).1, ?_⟩
  intro rs
  have key : ∀ (rs : List (Nat → Nat)) (t : State),
      (∀ j, j < cfg.MATRIX_ROWS → t.matrix j = 0 ∧ t.matrix_debouncing j = 0) →
      (∀ raw ∈ rs, ∀ i, i < cfg.MATRIX_ROWS → raw i = 0) →
      ∀ j, j < cfg.MATRIX_ROWS → (scans cfg t rs).matrix j = 0 := by
    intro rs
    induction rs with
    | nil => intro t ht _ j hj; exact (ht j hj).1
    | cons raw rest ih =>
      intro t ht hz j hj
      have hq : ¬ changed cfg t raw := by
        rintro ⟨i, hi, hne⟩
        apply hne
        rw [(ht i hi).2]
        exact hz raw (List.mem_cons_self _ _) i hi
      have hp := scan_pending_of_not_changed cfg t raw hq
      apply ih (scan cfg t raw) _ (fun r hr => hz r (List.mem_cons_of_mem _ hr)) j hj
      intro k hk
      rw [hp]
      refine ⟨?_, (ht k hk).2⟩
      rcases scan_matrix_of_not_changed cfg t raw hq k with hm | ⟨_, hm⟩
      · rw [hm]; exact (ht k hk).1
      · rw [hm]; exact (ht k hk).2
  intro hz
  exact key rs (matrix_init cfg s) hinit hz row hrow

/-- Witness of C6: `matrix_init` called in a state with a key committed, then three
passes with all keys released; row 0 reads 0. -/
theorem boot_released_witness :
    matrix_get_row (matrix_init cfg23
        (scans cfg23 (power_on cfg23) [press0, press0, press0])) 0 = 0 ∧
    matrix_get_row (scans cfg23 (matrix_init cfg23
        (scans cfg23 (power_on cfg23) [press0, press0, press0]))
        [released, released, released]) 0 = 0 :=
  have h := boot_released cfg23 (scans cfg23 (power_on cfg23) [press0, press0, press0]) 0
    (by decide)
  ⟨h.1, h.2 [released, released, released] (fun raw _ i _ => by
    have hr : raw = released := by simp_all
    rw [hr]; rfl)⟩

/-- The counter of a reachable state is at most the stored threshold. -/
theorem reachable_counter_le (cfg : Config) (s : State) (hr : Reachable cfg s) :
    s.debouncing ≤ cfg.DEBOUNCE % 256 := by
  induction hr with
  | boot => exact Nat.le_refl _
  | init s _ ih =>
    simp only [matrix_init, init_rows_counter]; exact ih
  | pass s raw _ ih =>
    have hs : s.debouncing < 256 := by omega
    rw [scan_counter cfg s raw hs]
    split <;> omega

/-- C7 (counter range).  With `DEBOUNCE ≤ 255`: in every state reachable from
power-on by `matrix_init` and `matrix_scan` calls the 8-bit counter is at most
`DEBOUNCE`; a pass from such a state leaves the counter one below the value it had
after the row loop, or at 0 when that value was 0, so the 8-bit decrement never
wraps; and in the row loop the counter is set to `DEBOUNCE` each time a row's raw
sample differs from the pending value of that row. -/
theorem counter_range (cfg : Config) (h8 : cfg.DEBOUNCE < 256) :
    (∀ s : State, Reachable cfg s → s.debouncing ≤ cfg.DEBOUNCE ∧ s.debouncing < 256) ∧
    (∀ (s : State) (raw : Nat → Nat), Reachable cfg s →
      (scan cfg s raw).debouncing
        = ((List.range cfg.MATRIX_ROWS).foldl (scan_row cfg raw) s).debouncing - 1) ∧
    (∀ (s : State) (raw : Nat → Nat) (i : Nat), s.matrix_debouncing i ≠ raw i →
      (scan_row cfg raw s i).debouncing = cfg.DEBOUNCE) ∧
    (∀ (s : State) (raw : Nat → Nat), changed cfg s raw →
      ((List.range cfg.MATRIX_ROWS).foldl (scan_row cfg raw) s).debouncing = cfg.DEBOUNCE) := by
  have hmod : cfg.DEBOUNCE % 256 = cfg.DEBOUNCE := Nat.mod_eq_of_lt h8
  refine ⟨?_, ?_, ?_, ?_⟩
  · intro s hr
    have := reachable_counter_le cfg s hr
    omega
  · intro s raw hr
    have := reachable_counter_le cfg s hr
    rw [scan_rows_counter_changed, scan_counter cfg s raw (by omega)]
  · intro s raw i hne
    simp only [scan_row, if_pos hne, hmod]
  · intro s raw hch
    rw [scan_rows_counter_changed, if_pos hch, hmod]

/-- Witness of C7: threshold 3; the state after one pass from power-on, a second
pass from it, and the row step for row 0 sampling a pressed key. -/
theorem counter_range_witness :
    ((scan cfg23 (power_on cfg23) press0).debouncing ≤ cfg23.DEBOUNCE ∧
      (scan cfg23 (power_on cfg23) press0).debouncing < 256) ∧
    (scan cfg23 (scan cfg23 (power_on cfg23) press0) press0).debouncing
      = ((List.range cfg23.MATRIX_ROWS).foldl (scan_row cfg23 press0)
          (scan cfg23 (power_on cfg23) press0)).debouncing - 1 ∧
    (scan_row cfg23 press0 settled0 0).debouncing = cfg23.DEBOUNCE :=
  have h := counter_range cfg23 (by decide)
  ⟨h.1 _ (Reachable.pass _ press0 Reachable.boot),
   h.2.1 _ press0 (Reachable.pass _ press0 Reachable.boot),
   h.2.2.1 settled0 press0 0 (by decide)⟩

/-- Power-on and every state left by `matrix_init` have the committed rows equal to
the pending rows. -/
theorem power_on_synced (cfg : Config) (j : Nat) :
    (power_on cfg).matrix j = (power_on cfg).matrix_debouncing j := rfl

theorem matrix_init_synced (cfg : Config) (s : State) (j : Nat) (hj : j < cfg.MATRIX_ROWS) :
    (matrix_init cfg s).matrix j = (matrix_init cfg s).matrix_debouncing j := by
  simp only [matrix_init, init_rows_matrix, init_rows_pending, if_pos hj]

/-- Every reachable state is the end of a run of passes that starts in a state with
the committed rows equal to the pending rows. -/
theorem reachable_run (cfg : Config) (s : State) (hr : Reachable cfg s) :
    ∃ (s0 : State) (rs : List (Nat → Nat)),
      (∀ j, j < cfg.MATRIX_ROWS → s0.matrix j = s0.matrix_debouncing j) ∧
      s = scans cfg s0 rs := by
  induction hr with
  | boot => exact ⟨power_on cfg, [], fun j _ => power_on_synced cfg j, rfl⟩
  | init s _ _ => exact ⟨matrix_init cfg s, [], fun j hj => matrix_init_synced cfg s j hj, rfl⟩
  | pass s raw _ ih =>
    obtain ⟨s0, rs, h0, he⟩ := ih
    refine ⟨s0, rs ++ [raw], h0, ?_⟩
    rw [scans_append, ← he]; rfl

/-- Along a run from a state with committed equal to pending: either committed equals
pending, or the counter is positive and counts the passes still missing in the
window opened by the last pass that observed a raw change, or the threshold is 0
and so is the counter. -/
theorem run_inv (cfg : Config) (h8 : cfg.DEBOUNCE < 256) (s0 : State)
    (hsync : ∀ j, j < cfg.MATRIX_ROWS → s0.matrix j = s0.matrix_debouncing j)
    (rs : List (Nat → Nat)) :
    (∀ j, j < cfg.MATRIX_ROWS →
      (scans cfg s0 rs).matrix j = (scans cfg s0 rs).matrix_debouncing j) ∨
    (∃ (pre : List (Nat → Nat)) (rc : Nat → Nat) (post : List (Nat → Nat)),
      rs = pre ++ rc :: post ∧ changed cfg (scans cfg s0 pre) rc ∧
      quiet cfg (scan cfg (scans cfg s0 pre) rc) post ∧
      0 < (scans cfg s0 rs).debouncing ∧
      (scans cfg s0 rs).debouncing + post.length + 1 = cfg.DEBOUNCE) ∨
    (cfg.DEBOUNCE = 0 ∧ (scans cfg s0 rs).debouncing = 0) := by
  have hmod : cfg.DEBOUNCE % 256 = cfg.DEBOUNCE := Nat.mod_eq_of_lt h8
  induction rs using List.reverseRecOn with
  | nil => left; exact hsync
  | append_singleton rs raw ih =>
    have hstep : scans cfg s0 (rs ++ [raw]) = scan cfg (scans cfg s0 rs) raw := by
      rw [scans_append]; rfl
    rw [hstep]
    by_cases hch : changed cfg (scans cfg s0 rs) raw
    · obtain ⟨hc, hm⟩ := scan_of_changed cfg (scans cfg s0 rs) raw hch
      rw [hmod] at hc
      rcases Nat.lt_trichotomy cfg.DEBOUNCE 1 with hd | hd | hd
      · right; right
        exact ⟨by omega, by omega⟩
      · left
        intro j hj
        rw [hm j, scan_pending, hmod, if_pos ⟨hd, hj⟩, if_pos hj]
      · right; left
        refine ⟨rs, raw, [], rfl, hch, trivial, by omega, ?_⟩
        rw [hc, List.length_nil]; omega
    · have hp := scan_pending_of_not_changed cfg (scans cfg s0 rs) raw hch
      rcases ih with ih | ⟨pre, rc, post, hrs, hrc, hq, hpos, hcount⟩ | ⟨hd, hz⟩
      · left
        intro j hj
        rw [hp]
        rcases scan_matrix_of_not_changed cfg (scans cfg s0 rs) raw hch j with hm | ⟨_, hm⟩
        · rw [hm]; exact ih j hj
        · exact hm
      · obtain ⟨_, hc, hm⟩ := scan_quiet cfg (scans cfg s0 rs) raw (by omega) hch
        by_cases h1 : (scans cfg s0 rs).debouncing = 1
        · left
          intro j hj
          rw [hp, hm j, if_pos ⟨h1, hj⟩]
        · right; left
          refine ⟨pre, rc, post ++ [raw], by rw [hrs]; simp, hrc, ?_, by omega, ?_⟩
          · rw [quiet_append]
            refine ⟨hq, ?_, trivial⟩
            have he : scans cfg (scan cfg (scans cfg s0 pre) rc) post = scans cfg s0 rs := by
              rw [hrs, scans_append]; rfl
            rw [he]; exact hch
          · rw [hc, List.length_append, List.length_singleton]; omega
      · obtain ⟨_, hc, _⟩ := scan_quiet cfg (scans cfg s0 rs) raw (by omega) hch
        right; right
        exact ⟨hd, by rw [hc, hz]⟩

/-- C8, as stated, fails: from power-on with threshold 3, pass 1 observes a raw
change and passes 2 and 3 observe none; pass 3 changes the committed matrix, when
only two passes have followed the pass of the last observed change, so the run up to
the commit does not hold `DEBOUNCE` passes after a changing pass. -/
theorem commit_window_counterexample :
    (changed cfg23 (power_on cfg23) press0 ∧
      quiet cfg23 (scan cfg23 (power_on cfg23) press0) [press0, press0]) ∧
    (scans cfg23 (power_on cfg23) [press0, press0, press0]).matrix 0
      ≠ (scans cfg23 (power_on cfg23) [press0, press0]).matrix 0 ∧
    ¬ ∃ (pre : List (Nat → Nat)) (rc : Nat → Nat) (post : List (Nat → Nat)),
      [press0, press0, press0] = pre ++ rc :: post ∧
      changed cfg23 (scans cfg23 (power_on cfg23) pre) rc ∧
      quiet cfg23 (scan cfg23 (scans cfg23 (power_on cfg23) pre) rc) post ∧
      post.length = cfg23.DEBOUNCE := by
  refine ⟨by decide, by decide, ?_⟩
  rintro ⟨pre, rc, post, hl, _, _, hlen⟩
  have h := congrArg List.length hl
  simp only [List.length_cons, List.length_nil, List.length_append] at h
  have h3 : cfg23.DEBOUNCE = 3 := rfl
  omega

/-- C8 (commit only after a full window, amended).  With `DEBOUNCE ≤ 255`, along any
run of passes from a state with committed equal to pending (power-on, or the state
left by `matrix_init`): if a pass changes the committed matrix, then the counter
stood at 1 after the row loop of that pass and was decremented to 0, and the run up
to and including that pass ends with a pass that observed a raw change followed by
`DEBOUNCE - 1` passes that observed none. -/
theorem commit_after_window (cfg : Config) (h8 : cfg.DEBOUNCE < 256) (s0 : State)
    (hsync : ∀ j, j < cfg.MATRIX_ROWS → s0.matrix j = s0.matrix_debouncing j)
    (rs : List (Nat → Nat)) (raw : Nat → Nat)
    (hcommit : (scan cfg (scans cfg s0 rs) raw).matrix ≠ (scans cfg s0 rs).matrix) :
    (if changed cfg (scans cfg s0 rs) raw then cfg.DEBOUNCE
      else (scans cfg s0 rs).debouncing) = 1 ∧
    (scan cfg (scans cfg s0 rs) raw).debouncing = 0 ∧
    ∃ (pre : List (Nat → Nat)) (rc : Nat → Nat) (post : List (Nat → Nat)),
      rs ++ [raw] = pre ++ rc :: post ∧
      changed cfg (scans cfg s0 pre) rc ∧
      quiet cfg (scan cfg (scans cfg s0 pre) rc) post ∧
      post.length + 1 = cfg.DEBOUNCE := by
  have hmod : cfg.DEBOUNCE % 256 = cfg.DEBOUNCE := Nat.mod_eq_of_lt h8
  obtain ⟨j, hj⟩ := Function.ne_iff.mp hcommit
  by_cases hch : changed cfg (scans cfg s0 rs) raw
  · obtain ⟨hc, hm⟩ := scan_of_changed cfg (scans cfg s0 rs) raw hch
    rw [hmod] at hc
    rw [hm j, hmod] at hj
    have hd : cfg.DEBOUNCE = 1 := by
      by_contra hn
      rw [if_neg (fun h => hn h.1)] at hj
      exact hj rfl
    rw [if_pos hch]
    exact ⟨hd, by rw [hc, hd], rs, raw, [], rfl, hch, trivial, by rw [hd]; rfl⟩
  · rw [if_neg hch]
    have hstay : ∀ hs : (scans cfg s0 rs).debouncing < 256,
        (scans cfg s0 rs).debouncing = 1 ∧ (scan cfg (scans cfg s0 rs) raw).debouncing = 0 := by
      intro hs
      obtain ⟨_, hc, hm⟩ := scan_quiet cfg (scans cfg s0 rs) raw hs hch
      have h1 : (scans cfg s0 rs).debouncing = 1 := by
        by_contra hn
        rw [hm j, if_neg (fun h => hn h.1)] at hj
        exact hj rfl
      exact ⟨h1, by rw [hc, h1]⟩
    rcases run_inv cfg h8 s0 hsync rs with ih | ⟨pre, rc, post, hrs, hrc, hq, _, hcount⟩ | ⟨_, hz⟩
    · exfalso
      rcases scan_matrix_of_not_changed cfg (scans cfg s0 rs) raw hch j with hm | ⟨hjr, hm⟩
      · exact hj hm
      · exact hj (by rw [hm, ih j hjr])
    · obtain ⟨h1, h0⟩ := hstay (by omega)
      refine ⟨h1, h0, pre, rc, post ++ [raw], by rw [hrs]; simp, hrc, ?_, ?_⟩
      · rw [quiet_append]
        refine ⟨hq, ?_, trivial⟩
        have he : scans cfg (scan cfg (scans cfg s0 pre) rc) post = scans cfg s0 rs := by
          rw [hrs, scans_append]; rfl
        rw [he]; exact hch
      · rw [List.length_append, List.length_singleton]; omega
    · obtain ⟨h1, _⟩ := hstay (by omega)
      omega

/-- Witness of C8: threshold 3 from power-on; the third of three passes with row 0
pressed changes the committed matrix. -/
theorem commit_after_window_witness :
    (if changed cfg23 (scans cfg23 (power_on cfg23) [press0, press0]) press0
      then cfg23.DEBOUNCE
      else (scans cfg23 (power_on cfg23) [press0, press0]).debouncing) = 1 ∧
    (scan cfg23 (scans cfg23 (power_on cfg23) [press0, press0]) press0).debouncing = 0 ∧
    ∃ (pre : List (Nat → Nat)) (rc : Nat → Nat) (post : List (Nat → Nat)),
      [press0, press0] ++ [press0] = pre ++ rc :: post ∧
      changed cfg23 (scans cfg23 (power_on cfg23) pre) rc ∧
      quiet cfg23 (scan cfg23 (scans cfg23 (power_on cfg23) pre) rc) post ∧
      post.length + 1 = cfg23.DEBOUNCE :=
  commit_after_window cfg23 (by decide) (power_on cfg23)
    (fun j _ => power_on_synced cfg23 j) [press0, press0] press0
    (fun h => absurd (congrFun h 0) (by decide))

/-! ## The pass as the composition of `observe` and `tick` -/

theorem state_ext (a b : State) (hm : a.matrix = b.matrix)
    (hp : a.matrix_debouncing = b.matrix_debouncing) (hc : a.debouncing = b.debouncing) :
    a = b := by
  cases a; cases b
  simp only at hm hp hc
  rw [hm, hp, hc]

theorem spec_observe_eq_scan_row (cfg : Config) (h8 : cfg.DEBOUNCE < 256) (raw : Nat → Nat)
    (s : State) (i : Nat) : spec_observe cfg s i (raw i) = scan_row cfg raw s i := by
  have hmod : cfg.DEBOUNCE % 256 = cfg.DEBOUNCE := Nat.mod_eq_of_lt h8
  by_cases h : s.matrix_debouncing i = raw i
  · have h2 : ¬ raw i ≠ s.matrix_debouncing i := fun hn => hn h.symm
    have h3 : ¬ s.matrix_debouncing i ≠ raw i := fun hn => hn h
    simp only [spec_observe, scan_row, if_neg h2, if_neg h3]
  · have h2 : raw i ≠ s.matrix_debouncing i := fun hn => h hn.symm
    simp only [spec_observe, scan_row, if_pos h2, if_pos h, hmod]
    rfl

theorem spec_observe_rows_eq (cfg : Config) (h8 : cfg.DEBOUNCE < 256) (raw : Nat → Nat)
    (s : State) (n : Nat) :
    spec_observe_rows cfg raw s n = (List.range n).foldl (scan_row cfg raw) s := by
  induction n with
  | zero => rfl
  | succ n ih =>
    rw [List.range_succ, List.foldl_append]
    simp only [List.foldl_cons, List.foldl_nil, spec_observe_rows, ih]
    exact spec_observe_eq_scan_row cfg h8 raw _ n

/-- C9 (refinement).  With `DEBOUNCE ≤ 255`, for every state whose counter is a
`uint8_t` value and every map of raw samples, `matrix_scan` returns 1 and leaves the
state that `observe`, applied to rows `0 .. MATRIX_ROWS-1` in ascending order,
followed by one `tick`, produces. -/
theorem matrix_scan_refines_spec (cfg : Config) (h8 : cfg.DEBOUNCE < 256) (s : State)
    (hs : s.debouncing < 256) (raw : Nat → Nat) :
    matrix_scan cfg s raw = (1, spec_scan cfg s raw) := by
  have hfst : (matrix_scan cfg s raw).1 = 1 := rfl
  have hsnd : (matrix_scan cfg s raw).2 = spec_scan cfg s raw := by
    have ht : ((List.range cfg.MATRIX_ROWS).foldl (scan_row cfg raw) s).debouncing < 256 := by
      rw [scan_rows_counter_changed]
      exact row_loop_counter_lt cfg s raw hs
    simp only [spec_scan, spec_observe_rows_eq cfg h8, matrix_scan, spec_tick]
    generalize (List.range cfg.MATRIX_ROWS).foldl (scan_row cfg raw) s = t at ht ⊢
    by_cases h0 : t.debouncing = 0
    · have hn : ¬ 0 < t.debouncing := by omega
      rw [if_neg (not_not.mpr h0), if_neg hn]
    · have hp : 0 < t.debouncing := by omega
      have hdec : (t.debouncing + 255) % 256 = t.debouncing - 1 := by omega
      rw [if_pos h0, if_pos hp, hdec]
      by_cases h1 : t.debouncing - 1 = 0
      · rw [if_neg (not_not.mpr h1), if_pos h1]
        apply state_ext
        · funext j
          rw [commit_rows_matrix]
        · rw [commit_rows_pending]
        · rw [commit_rows_counter]; exact h1
      · rw [if_pos h1, if_neg h1]
  exact Prod.ext hfst hsnd

/-- Witness of C9: threshold 3, the first pass from power-on with row 0 pressed. -/
theorem matrix_scan_refines_spec_witness :
    matrix_scan cfg23 (power_on cfg23) press0 = (1, spec_scan cfg23 (power_on cfg23) press0) :=
  matrix_scan_refines_spec cfg23 (by decide) (power_on cfg23) (by decide) press0

/-- C10, as stated, fails: `matrix_init` does not write the counter; called in a state
whose counter has run down to 0 it leaves the counter at 0, not at `DEBOUNCE`. -/
theorem matrix_init_counter_counterexample :
    ¬ (matrix_init cfg23 (scans cfg23 (power_on cfg23) [press0, press0, press0])).debouncing
        = cfg23.DEBOUNCE := by
  decide

/-- C10 (initial state, amended).  For every state in which `matrix_init` is called,
afterwards the committed and the pending matrix are zero on every row below
`MATRIX_ROWS` and the counter has the value it had before; called at power-on, with
`DEBOUNCE ≤ 255`, it leaves the counter at `DEBOUNCE`, the value of its static
initialiser. -/
theorem matrix_init_state (cfg : Config) (h8 : cfg.DEBOUNCE < 256) (s : State) :
    (∀ j, j < cfg.MATRIX_ROWS →
      (matrix_init cfg s).matrix j = 0 ∧ (matrix_init cfg s).matrix_debouncing j = 0) ∧
    (matrix_init cfg s).debouncing = s.debouncing ∧
    (matrix_init cfg (power_on cfg)).debouncing = cfg.DEBOUNCE := by
  refine ⟨?_, ?_, ?_⟩
  · intro j hj
    simp only [matrix_init, init_rows_matrix, init_rows_pending, if_pos hj, and_self]
  · simp only [matrix_init, init_rows_counter]
  · simp only [matrix_init, init_rows_counter, power_on]
    exact Nat.mod_eq_of_lt h8

/-- Witness of C10: `matrix_init` called after three passes that committed a key. -/
theorem matrix_init_state_witness :
    ((matrix_init cfg23 (scans cfg23 (power_on cfg23) [press0, press0, press0])).matrix 0 = 0 ∧
      (matrix_init cfg23
        (scans cfg23 (power_on cfg23) [press0, press0, press0])).matrix_debouncing 0 = 0) ∧
    (matrix_init cfg23 (scans cfg23 (power_on cfg23) [press0, press0, press0])).debouncing
      = (scans cfg23 (power_on cfg23) [press0, press0, press0]).debouncing ∧
    (matrix_init cfg23 (power_on cfg23)).debouncing = cfg23.DEBOUNCE :=
  have h := matrix_init_state cfg23 (by decide)
    (scans cfg23 (power_on cfg23) [press0, press0, press0])
  ⟨h.1 0 (by decide), h.2.1, h.2.2⟩

/-! ## The row pins under `select_row` and `unselect_rows` -/

theorem row_ddr_select (r : Regs) (i k : Nat) (hi : i < 16) (hk : k < 16) :
    row_ddr (select_row i r) k = (row_ddr r k || decide (k = i)) := by
  interval_cases i <;> interval_cases k <;> simp +decide [select_row, row_ddr]

theorem row_port_select (r : Regs) (i k : Nat) (hi : i < 16) (hk : k < 16) :
    row_port (select_row i r) k = (row_port r k && !decide (k = i)) := by
  interval_cases i <;> interval_cases k <;> simp +decide [select_row, row_port]

/-- The `DDR` lines of `unselect_rows` clear the `DDR` bit of every row pin. -/
theorem row_ddr_unselect (r : Regs) (k : Nat) (hk : k < 16) :
    row_ddr (unselect_rows r) k = false := by
  interval_cases k <;> simp +decide [unselect_rows, row_ddr]

/-- The `PORT` lines of `unselect_rows` keep the `PORT` bit of every row pin. -/
theorem row_port_unselect (r : Regs) (k : Nat) (hk : k < 16) :
    row_port (unselect_rows r) k = row_port r k := by
  interval_cases k <;> simp +decide [unselect_rows, row_port]

/-- After `select_row i` a row is asserting when it is row `i` or was asserting. -/
theorem asserting_select (r : Regs) (i k : Nat) (hi : i < 16) (hk : k < 16) :
    asserting (select_row i r) k ↔ (k = i ∨ asserting r k) := by
  unfold asserting
  rw [row_ddr_select r i k hi hk, row_port_select r i k hi hk]
  by_cases h : k = i
  · simp [h]
  · simp [h]

/-- C11, as stated, fails: from the reset state, where no row is asserting,
`select_row(0)` followed by `select_row(1)` leaves row 0 asserting, with its `DDR`
bit at 1; `select_row` never releases a row. -/
theorem select_exclusive_counterexample :
    (∀ k, k < 16 → ¬ asserting regs0 k) ∧
    asserting (select_row 1 (select_row 0 regs0)) 0 ∧
    ¬ (row_ddr (select_row 1 (select_row 0 regs0)) 0 = false) := by
  decide

/-- C11 (driver select, amended).  From a register state in which no row is
asserting, for distinct rows `i, j < 16`: after `select_row(i)` exactly row `i` is
asserting; `select_row(j)` called directly afterwards makes row `j` asserting and
leaves row `i` asserting; with the `unselect_rows()` that `matrix_scan` calls in
between, after `select_row(j)` exactly row `j` is asserting and the `DDR` bit of row
`i` is 0. -/
theorem select_after_unselect (r : Regs) (i j : Nat) (hi : i < 16) (hj : j < 16)
    (hij : i ≠ j) (hpre : ∀ k, k < 16 → ¬ asserting r k) :
    (∀ k, k < 16 → (asserting (select_row i r) k ↔ k = i)) ∧
    (asserting (select_row j (select_row i r)) i ∧
      asserting (select_row j (select_row i r)) j) ∧
    (∀ k, k < 16 → (asserting (select_row j (unselect_rows (select_row i r))) k ↔ k = j)) ∧
    row_ddr (select_row j (unselect_rows (select_row i r))) i = false := by
  have h1 : ∀ k, k < 16 → (asserting (select_row i r) k ↔ k = i) := by
    intro k hk
    rw [asserting_select r i k hi hk]
    constructor
    · rintro (h | h)
      · exact h
      · exact absurd h (hpre k hk)
    · intro h; exact Or.inl h
  have hun : ∀ k, k < 16 → ¬ asserting (unselect_rows (select_row i r)) k := by
    intro k hk h
    have := h.1
    rw [row_ddr_unselect _ k hk] at this
    exact Bool.noConfusion this
  refine ⟨h1, ⟨?_, ?_⟩, ?_, ?_⟩
  · rw [asserting_select _ j i hj hi]
    exact Or.inr ((h1 i hi).mpr rfl)
  · rw [asserting_select _ j j hj hj]
    exact Or.inl rfl
  · intro k hk
    rw [asserting_select _ j k hj hk]
    constructor
    · rintro (h | h)
      · exact h
      · exact absurd h (hun k hk)
    · intro h; exact Or.inl h
  · rw [row_ddr_select _ j i hj hi, row_ddr_unselect _ i hi]
    simp [hij]

/-- Witness of C11: rows 0 and 1 from the reset state. -/
theorem select_after_unselect_witness :
    (asserting (select_row 0 regs0) 0 ↔ 0 = 0) ∧
    (asserting (select_row 1 (select_row 0 regs0)) 0 ∧
      asserting (select_row 1 (select_row 0 regs0)) 1) ∧
    (asserting (select_row 1 (unselect_rows (select_row 0 regs0))) 1 ↔ 1 = 1) ∧
    row_ddr (select_row 1 (unselect_rows (select_row 0 regs0))) 0 = false :=
  have h := select_after_unselect regs0 0 1 (by decide) (by decide) (by decide) (by decide)
  ⟨h.1 0 (by decide), h.2.1, h.2.2.1 1 (by decide), h.2.2.2⟩

/-- C12, the code at a failing input: sixteen rows, all port registers 0 at reset.
After `matrix_init` the column pins C4-C7 and F4-F7 are inputs with pull-up; after
one `matrix_scan` their `DDR` bits are still 0 but their `PORT` bits are 0 as well:
the `PORT` lines of `unselect_rows`, written `&= mask` where the `DDR` lines have
`&= ~mask`, clear every bit that is not a row pin. -/
theorem pullups_cleared_by_scan :
    (∀ k, 4 ≤ k → k ≤ 7 →
      (matrix_init_regs 7 regs0).DDRC.testBit k = false ∧
      (matrix_init_regs 7 regs0).PORTC.testBit k = true ∧
      (matrix_init_regs 7 regs0).DDRF.testBit k = false ∧
      (matrix_init_regs 7 regs0).PORTF.testBit k = true) ∧
    (∀ k, 4 ≤ k → k ≤ 7 →
      (matrix_scan_regs cfg16 (matrix_init_regs 7 regs0)).DDRC.testBit k = false ∧
      (matrix_scan_regs cfg16 (matrix_init_regs 7 regs0)).PORTC.testBit k = false ∧
      (matrix_scan_regs cfg16 (matrix_init_regs 7 regs0)).DDRF.testBit k = false ∧
      (matrix_scan_regs cfg16 (matrix_init_regs 7 regs0)).PORTF.testBit k = false) := by
  refine ⟨?_, ?_⟩ <;> intro k h4 h7 <;> interval_cases k <;> decide

/-- C13, the code at a failing input: `PORTB = 0x70` and `DDRB = 0x70`, as `led_set(0)`
leaves them from reset.  After `unselect_rows` the `DDR` bit of row 0, pin B4, is 0
but its `PORT` bit is still 1, while the `PORT` bits 5 and 6, which are no row pins,
have been cleared. -/
theorem unselect_keeps_port_bit :
    (led_set leds012 0 regs0).PORTB = 0x70 ∧
    row_ddr (unselect_rows (led_set leds012 0 regs0)) 0 = false ∧
    row_port (unselect_rows (led_set leds012 0 regs0)) 0 = true ∧
    (unselect_rows (led_set leds012 0 regs0)).PORTB = 0x10 := by
  decide

/-! ## Bit tests -/

/-- The C test `x & (1<<b)` is non-zero exactly when bit `b` of `x` is set. -/
theorem and_shift_ne_zero (x b : Nat) : x &&& (1 <<< b) ≠ 0 ↔ x.testBit b = true := by
  rw [Nat.one_shiftLeft]
  constructor
  · intro h
    by_contra hb
    apply h
    apply Nat.eq_of_testBit_eq
    intro k
    rw [Nat.testBit_and, Nat.testBit_two_pow, Nat.zero_testBit]
    by_cases hk : b = k
    · subst hk
      simp only [Bool.not_eq_true] at hb
      rw [hb]; rfl
    · simp [hk]
  · intro h h0
    have := congrArg (fun y => Nat.testBit y b) h0
    simp only [Nat.testBit_and, Nat.testBit_two_pow_self, Nat.zero_testBit, Bool.and_true] at this
    rw [h] at this
    exact Bool.noConfusion this

/-- Bit `k` of the operand `cond ? 0 : (1<<m)` of `read_cols`. -/
theorem testBit_cond_shift (x b m k : Nat) :
    (if x &&& (1 <<< b) ≠ 0 then 0 else (1 <<< m)).testBit k
      = (!x.testBit b && decide (m = k)) := by
  by_cases h : x &&& (1 <<< b) ≠ 0
  · rw [if_pos h, (and_shift_ne_zero x b).mp h, Nat.zero_testBit]; rfl
  · rw [if_neg h, Nat.one_shiftLeft, Nat.testBit_two_pow]
    have hb : x.testBit b = false := by
      cases hx : x.testBit b
      · rfl
      · exact absurd ((and_shift_ne_zero x b).mpr hx) h
    rw [hb]; rfl

/-- Every bit of the value of `read_cols`. -/
theorem read_cols_testBit (PINC PINF k : Nat) :
    (read_cols PINC PINF).testBit k =
      ((!PINC.testBit 4 && decide (0 = k)) || (!PINC.testBit 5 && decide (1 = k)) ||
       (!PINC.testBit 6 && decide (2 = k)) || (!PINC.testBit 7 && decide (3 = k)) ||
       (!PINF.testBit 4 && decide (4 = k)) || (!PINF.testBit 5 && decide (5 = k)) ||
       (!PINF.testBit 6 && decide (6 = k)) || (!PINF.testBit 7 && decide (7 = k))) := by
  simp only [read_cols, Nat.testBit_or, testBit_cond_shift]

/-- C14 (`read_cols`).  For all values of `PINC` and `PINF`: bit `k` of `read_cols()`
for `k ≤ 3` is the negation of bit `4 + k` of `PINC`, bit `k` for `4 ≤ k ≤ 7` is the
negation of bit `k` of `PINF`, and every bit above 7 is 0. -/
theorem read_cols_active_high (PINC PINF k : Nat) :
    (k ≤ 3 → (read_cols PINC PINF).testBit k = !PINC.testBit (4 + k)) ∧
    (4 ≤ k → k ≤ 7 → (read_cols PINC PINF).testBit k = !PINF.testBit k) ∧
    (7 < k → (read_cols PINC PINF).testBit k = false) := by
  refine ⟨?_, ?_, ?_⟩
  · intro hk
    rw [read_cols_testBit]
    interval_cases k <;> simp
  · intro h4 h7
    rw [read_cols_testBit]
    interval_cases k <;> simp
  · intro hk
    rw [read_cols_testBit]
    have e0 : decide (0 = k) = false := decide_eq_false (by omega)
    have e1 : decide (1 = k) = false := decide_eq_false (by omega)
    have e2 : decide (2 = k) = false := decide_eq_false (by omega)
    have e3 : decide (3 = k) = false := decide_eq_false (by omega)
    have e4 : decide (4 = k) = false := decide_eq_false (by omega)
    have e5 : decide (5 = k) = false := decide_eq_false (by omega)
    have e6 : decide (6 = k) = false := decide_eq_false (by omega)
    have e7 : decide (7 = k) = false := decide_eq_false (by omega)
    rw [e0, e1, e2, e3, e4, e5, e6, e7]
    simp

/-! ## The LED setter -/

/-- Bit `k` after `x |= (1<<b)`. -/
theorem testBit_set_bit (x b k : Nat) :
    (x ||| (1 <<< b)).testBit k = (x.testBit k || decide (b = k)) := by
  rw [Nat.testBit_or, Nat.one_shiftLeft, Nat.testBit_two_pow]

/-- Bit `k` after `x &= ~(1<<b)` on an 8-bit register. -/
theorem testBit_clear_bit (x b k : Nat) (hk : k < 8) :
    (x &&& (255 ^^^ (1 <<< b))).testBit k = (x.testBit k && !decide (b = k)) := by
  have h255 : Nat.testBit 255 k = true := by
    have := Nat.testBit_two_pow_sub_one 8 k
    simpa [hk] using this
  rw [Nat.testBit_and, Nat.testBit_xor, Nat.one_shiftLeft, Nat.testBit_two_pow, h255]
  cases decide (b = k) <;> rfl

theorem led_set_DDRB (leds : LedBits) (usb_led : Nat) (r : Regs) :
    (led_set leds usb_led r).DDRB = r.DDRB ||| ((1 <<< 6) ||| (1 <<< 5) ||| (1 <<< 4)) := by
  simp only [led_set]
  split <;> split <;> split <;> rfl

/-- The `PORTB` value `led_set` leaves, from the `PORTB` value before and the three
tested bits of `usb_led`. -/
theorem led_set_PORTB (leds : LedBits) (usb_led : Nat) (r : Regs) :
    (led_set leds usb_led r).PORTB =
      (fun x => if usb_led.testBit leds.USB_LED_NUM_LOCK = true
          then x &&& (255 ^^^ (1 <<< 4)) else x ||| (1 <<< 4))
        ((fun x => if usb_led.testBit leds.USB_LED_SCROLL_LOCK = true
            then x &&& (255 ^^^ (1 <<< 5)) else x ||| (1 <<< 5))
          ((fun x => if usb_led.testBit leds.USB_LED_CAPS_LOCK = true
              then x &&& (255 ^^^ (1 <<< 6)) else x ||| (1 <<< 6)) r.PORTB)) := by
  simp only [led_set, and_shift_ne_zero]
  split <;> split <;> split <;> rfl

/-- Registers other than `DDRB` and `PORTB` are not written by `led_set`. -/
theorem led_set_frame (leds : LedBits) (usb_led : Nat) (r : Regs) :
    led_set leds usb_led r =
      { r with DDRB := (led_set leds usb_led r).DDRB, PORTB := (led_set leds usb_led r).PORTB } := by
  simp only [led_set]
  split <;> split <;> split <;> rfl

theorem led_set_PORTB_testBit (leds : LedBits) (usb_led : Nat) (r : Regs) (k : Nat) (hk : k < 8) :
    (led_set leds usb_led r).PORTB.testBit k =
      if k = 4 then !usb_led.testBit leds.USB_LED_NUM_LOCK
      else if k = 5 then !usb_led.testBit leds.USB_LED_SCROLL_LOCK
      else if k = 6 then !usb_led.testBit leds.USB_LED_CAPS_LOCK
      else r.PORTB.testBit k := by
  simp only [led_set, and_shift_ne_zero]
  cases usb_led.testBit leds.USB_LED_CAPS_LOCK <;>
    cases usb_led.testBit leds.USB_LED_SCROLL_LOCK <;>
    cases usb_led.testBit leds.USB_LED_NUM_LOCK <;>
    simp only [Bool.false_eq_true, if_false, if_true, testBit_set_bit,
      testBit_clear_bit _ _ k hk] <;>
    by_cases h4 : k = 4 <;> by_cases h5 : k = 5 <;> by_cases h6 : k = 6 <;>
    simp [h4, h5, h6, eq_comm]

theorem led_set_DDRB_testBit (leds : LedBits) (usb_led : Nat) (r : Regs) (k : Nat) :
    (led_set leds usb_led r).DDRB.testBit k
      = (r.DDRB.testBit k || decide (6 = k) || decide (5 = k) || decide (4 = k)) := by
  rw [led_set_DDRB]
  simp only [Nat.testBit_or, Nat.one_shiftLeft, Nat.testBit_two_pow, Bool.or_assoc]

theorem led_set_idem (leds : LedBits) (usb_led : Nat) (r : Regs) :
    led_set leds usb_led (led_set leds usb_led r) = led_set leds usb_led r := by
  have hD : (led_set leds usb_led (led_set leds usb_led r)).DDRB
      = (led_set leds usb_led r).DDRB := by
    rw [led_set_DDRB, led_set_DDRB, Nat.lor_assoc, Nat.or_self]
  have hP : (led_set leds usb_led (led_set leds usb_led r)).PORTB
      = (led_set leds usb_led r).PORTB := by
    rw [led_set_PORTB leds usb_led (led_set leds usb_led r), led_set_PORTB leds usb_led r]
    generalize r.PORTB = p
    cases usb_led.testBit leds.USB_LED_CAPS_LOCK <;>
      cases usb_led.testBit leds.USB_LED_SCROLL_LOCK <;>
      cases usb_led.testBit leds.USB_LED_NUM_LOCK <;>
      simp only [Bool.false_eq_true, if_false, if_true] <;>
      apply Nat.eq_of_testBit_eq <;> intro k <;>
      simp only [Nat.testBit_and, Nat.testBit_or, Nat.testBit_xor] <;>
      generalize Nat.testBit p k = a <;>
      generalize Nat.testBit (1 <<< 6) k = b6 <;>
      generalize Nat.testBit (1 <<< 5) k = b5 <;>
      generalize Nat.testBit (1 <<< 4) k = b4 <;>
      generalize Nat.testBit 255 k = m <;>
      revert a b6 b5 b4 m <;> decide
  rw [led_set_frame leds usb_led (led_set leds usb_led r), hD, hP]

/-- C15 (`led_set`).  For every `usb_led` and every register state: after `led_set`
the bits 4, 5 and 6 of `DDRB` are 1; bit 6 of `PORTB` is the negation of bit
`USB_LED_CAPS_LOCK` of `usb_led`, bit 5 that of bit `USB_LED_SCROLL_LOCK` and bit 4
that of bit `USB_LED_NUM_LOCK`; the other bits of the 8-bit registers `DDRB` and
`PORTB` and all other registers are unchanged; and `led_set` called twice with the
same argument leaves the registers that one call leaves. -/
theorem led_set_bits (leds : LedBits) (usb_led : Nat) (r : Regs) :
    ((led_set leds usb_led r).DDRB.testBit 4 = true ∧
      (led_set leds usb_led r).DDRB.testBit 5 = true ∧
      (led_set leds usb_led r).DDRB.testBit 6 = true) ∧
    ((led_set leds usb_led r).PORTB.testBit 6 = !usb_led.testBit leds.USB_LED_CAPS_LOCK) ∧
    ((led_set leds usb_led r).PORTB.testBit 5 = !usb_led.testBit leds.USB_LED_SCROLL_LOCK) ∧
    ((led_set leds usb_led r).PORTB.testBit 4 = !usb_led.testBit leds.USB_LED_NUM_LOCK) ∧
    (∀ k, k < 8 → k ≠ 4 → k ≠ 5 → k ≠ 6 →
      (led_set leds usb_led r).DDRB.testBit k = r.DDRB.testBit k ∧
      (led_set leds usb_led r).PORTB.testBit k = r.PORTB.testBit k) ∧
    led_set leds usb_led r =
      { r with DDRB := (led_set leds usb_led r).DDRB, PORTB := (led_set leds usb_led r).PORTB } ∧
    led_set leds usb_led (led_set leds usb_led r) = led_set leds usb_led r := by
  refine ⟨⟨?_, ?_, ?_⟩, ?_, ?_, ?_, ?_, led_set_frame leds usb_led r,
    led_set_idem leds usb_led r⟩
  · rw [led_set_DDRB_testBit]; simp
  · rw [led_set_DDRB_testBit]; simp
  · rw [led_set_DDRB_testBit]; simp
  · rw [led_set_PORTB_testBit leds usb_led r 6 (by decide)]; simp
  · rw [led_set_PORTB_testBit leds usb_led r 5 (by decide)]; simp
  · rw [led_set_PORTB_testBit leds usb_led r 4 (by decide)]; simp
  · intro k hk h4 h5 h6
    rw [led_set_DDRB_testBit, led_set_PORTB_testBit leds usb_led r k hk]
    have e4 : decide (4 = k) = false := decide_eq_false (fun h => h4 h.symm)
    have e5 : decide (5 = k) = false := decide_eq_false (fun h => h5 h.symm)
    have e6 : decide (6 = k) = false := decide_eq_false (fun h => h6 h.symm)
    rw [e4, e5, e6, if_neg h4, if_neg h5, if_neg h6]
    simp

/-! ## Further properties of the filter -/

/-- C16 (settled means synchronised).  With `1 ≤ DEBOUNCE ≤ 255`, in every state
reachable from power-on by `matrix_init` and `matrix_scan` calls: if the counter is 0
then the committed matrix equals the pending matrix on every row below
`MATRIX_ROWS`. -/
theorem settled_synchronised (cfg : Config) (hD : 0 < cfg.DEBOUNCE) (h8 : cfg.DEBOUNCE < 256)
    (s : State) (hr : Reachable cfg s) (h0 : s.debouncing = 0) (j : Nat)
    (hj : j < cfg.MATRIX_ROWS) : s.matrix j = s.matrix_debouncing j :=
  (reachable_inv cfg hD h8 s hr).2 h0 j hj

/-- Witness of C16: threshold 3, the state after three passes with row 0 pressed,
whose counter is 0. -/
theorem settled_synchronised_witness :
    (scan cfg23 (scan cfg23 (scan cfg23 (power_on cfg23) press0) press0) press0).matrix 0
      = (scan cfg23 (scan cfg23 (scan cfg23 (power_on cfg23) press0) press0)
          press0).matrix_debouncing 0 :=
  settled_synchronised cfg23 (by decide) (by decide) _
    (Reachable.pass _ press0 (Reachable.pass _ press0 (Reachable.pass _ press0 Reachable.boot)))
    (by decide) 0 (by decide)

/-- C17 (exact commit latency).  With `1 ≤ DEBOUNCE ≤ 255`, from any state: if a pass
observes a raw change and the `DEBOUNCE - 1` passes after it observe none, then the
committed matrix is as before the changing pass after that pass and after each of
the following passes but the last (passes `s .. s+DEBOUNCE-2`), and after the last
one (pass `s+DEBOUNCE-1`) every committed row equals the pending row, which is the
sample of the changing pass, and the counter is 0.  For `DEBOUNCE = 1` the last pass
is the changing pass itself. -/
theorem commit_latency (cfg : Config) (hD : 0 < cfg.DEBOUNCE) (h8 : cfg.DEBOUNCE < 256)
    (s : State) (first : Nat → Nat) (rest : List (Nat → Nat))
    (hfirst : changed cfg s first)
    (hrest : quiet cfg (scan cfg s first) rest)
    (hlen : rest.length + 1 = cfg.DEBOUNCE) :
    (∀ k, k + 1 < cfg.DEBOUNCE →
      (scans cfg (scan cfg s first) (rest.take k)).matrix = s.matrix) ∧
    (∀ j, j < cfg.MATRIX_ROWS →
      (scans cfg (scan cfg s first) rest).matrix j
        = (scans cfg (scan cfg s first) rest).matrix_debouncing j ∧
      (scans cfg (scan cfg s first) rest).matrix_debouncing j = first j) ∧
    (scans cfg (scan cfg s first) rest).debouncing = 0 := by
  have hmod : cfg.DEBOUNCE % 256 = cfg.DEBOUNCE := Nat.mod_eq_of_lt h8
  obtain ⟨hc, hm⟩ := scan_changed cfg h8 s first hfirst
  obtain ⟨_, hmf⟩ := scan_of_changed cfg s first hfirst
  have hs1 : (scan cfg s first).debouncing < 256 := by rw [hc]; omega
  obtain ⟨qp, qc, qm⟩ := scans_quiet cfg rest (scan cfg s first) hs1 hrest
  refine ⟨?_, ?_, ?_⟩
  · intro k hk
    obtain ⟨_, _, tm⟩ := scans_quiet cfg (rest.take k) (scan cfg s first) hs1
      (quiet_take cfg rest k _ hrest)
    funext j
    rw [tm j, hc, List.length_take, if_neg (by omega), hm (by omega)]
  · intro j hj
    have hpend : (scans cfg (scan cfg s first) rest).matrix_debouncing j = first j := by
      rw [qp, scan_pending, if_pos hj]
    refine ⟨?_, hpend⟩
    rw [hpend, qm j, hc]
    by_cases h1 : cfg.DEBOUNCE = 1
    · rw [if_neg (by omega), hmf j, hmod, if_pos ⟨h1, hj⟩]
    · rw [if_pos ⟨by omega, by omega, hj⟩, scan_pending, if_pos hj]
  · rw [qc, hc]; omega

/-- Witness of C17: threshold 3 from power-on; row 0 is pressed and held for two more
passes. -/
theorem commit_latency_witness :
    (scans cfg23 (scan cfg23 (power_on cfg23) press0) ([press0, press0].take 1)).matrix
      = (power_on cfg23).matrix ∧
    (scans cfg23 (scan cfg23 (power_on cfg23) press0) [press0, press0]).matrix 0
      = (scans cfg23 (scan cfg23 (power_on cfg23) press0) [press0, press0]).matrix_debouncing 0 ∧
    (scans cfg23 (scan cfg23 (power_on cfg23) press0) [press0, press0]).debouncing = 0 :=
  have h := commit_latency cfg23 (by decide) (by decide) (power_on cfg23) press0
    [press0, press0] (by decide) (by decide) rfl
  ⟨h.1 1 (by decide), (h.2.1 0 (by decide)).1, h.2.2⟩

/-- C20 (zero threshold).  With `DEBOUNCE = 0`, from any state with counter 0 and for
any sequence of raw samples: no pass changes the committed matrix or the counter, so
`matrix_get_row` returns for every row the value it returned at the start. -/
theorem zero_threshold_never_commits (cfg : Config) (hD : cfg.DEBOUNCE = 0) (s : State)
    (h0 : s.debouncing = 0) (rs : List (Nat → Nat)) :
    (scans cfg s rs).debouncing = 0 ∧ (scans cfg s rs).matrix = s.matrix ∧
    ∀ row, matrix_get_row (scans cfg s rs) row = matrix_get_row s row := by
  have key : ∀ (rs : List (Nat → Nat)) (t : State), t.debouncing = 0 →
      (scans cfg t rs).debouncing = 0 ∧ (scans cfg t rs).matrix = t.matrix := by
    intro rs
    induction rs with
    | nil => intro t ht; exact ⟨ht, rfl⟩
    | cons raw rest ih =>
      intro t ht
      have hc1 : (if changed cfg t raw then cfg.DEBOUNCE % 256 else t.debouncing) = 0 := by
        split
        · rw [hD]
        · exact ht
      have hc : (scan cfg t raw).debouncing = 0 := by
        rw [scan_counter_u8, if_pos hc1]
      have hm : (scan cfg t raw).matrix = t.matrix := by
        funext j
        rw [scan_matrix_u8, if_neg (fun h => h.1.1 hc1)]
      obtain ⟨i1, i2⟩ := ih (scan cfg t raw) hc
      exact ⟨i1, by rw [← hm]; exact i2⟩
  obtain ⟨k1, k2⟩ := key rs s h0
  exact ⟨k1, k2, fun row => by simp only [matrix_get_row, k2]⟩

/-- Witness of C20: threshold 0, two rows, the settled all-zero state; row 0 is
pressed for four passes and nothing is committed. -/
theorem zero_threshold_never_commits_witness :
    (scans cfg20 settled0 [press0, press0, press0, press0]).debouncing = 0 ∧
    (scans cfg20 settled0 [press0, press0, press0, press0]).matrix = settled0.matrix ∧
    matrix_get_row (scans cfg20 settled0 [press0, press0, press0, press0]) 0
      = matrix_get_row settled0 0 :=
  have h := zero_threshold_never_commits cfg20 rfl settled0 rfl
    [press0, press0, press0, press0]
  ⟨h.1, h.2.1, h.2.2 0⟩

/-! ## The registers during a scan pass -/

theorem scan_rows_regs_succ (r : Regs) (n : Nat) :
    (List.range (n + 1)).foldl scan_row_regs r
      = scan_row_regs ((List.range n).foldl scan_row_regs r) n := by
  rw [List.range_succ, List.foldl_append]; rfl

/-- Between the iterations of the row loop no row pin is an output. -/
theorem scan_rows_regs_ddr (r : Regs) (hpre : ∀ k, k < 16 → row_ddr r k = false) (n : Nat) :
    ∀ k, k < 16 → row_ddr ((List.range n).foldl scan_row_regs r) k = false := by
  induction n with
  | zero => exact hpre
  | succ n _ =>
    intro k hk
    rw [scan_rows_regs_succ]
    exact row_ddr_unselect _ k hk

/-- C18 (one row driven at each read).  From a register state in which the `DDR` bit
of all 16 row pins is 0, for every row `i < 16`: at the moment `read_cols` is called
for row `i` during `matrix_scan`, the row pins with `DDR` bit 1 are exactly the pin
of row `i`, and its `PORT` bit is 0; after the `unselect_rows` that follows, and so
after the whole pass, the `DDR` bit of all 16 row pins is 0 again. -/
theorem one_row_driven (cfg : Config) (r : Regs)
    (hpre : ∀ k, k < 16 → row_ddr r k = false) (i : Nat) (hi : i < 16) :
    (∀ k, k < 16 → (row_ddr (regs_at_read r i) k = true ↔ k = i)) ∧
    row_port (regs_at_read r i) i = false ∧
    (∀ k, k < 16 → row_ddr (unselect_rows (regs_at_read r i)) k = false) ∧
    (∀ k, k < 16 → row_ddr (matrix_scan_regs cfg r) k = false) := by
  refine ⟨?_, ?_, ?_, ?_⟩
  · intro k hk
    unfold regs_at_read
    rw [row_ddr_select _ i k hi hk, scan_rows_regs_ddr r hpre i k hk]
    simp
  · unfold regs_at_read
    rw [row_port_select _ i i hi hi]
    simp
  · intro k hk
    exact row_ddr_unselect _ k hk
  · intro k hk
    exact scan_rows_regs_ddr r hpre cfg.MATRIX_ROWS k hk

/-- Witness of C18: sixteen rows from the reset state, at the read of row 5 (pin D2):
row 5 is driven, row 0 is not. -/
theorem one_row_driven_witness :
    (row_ddr (regs_at_read regs0 5) 5 = true ↔ 5 = 5) ∧
    (row_ddr (regs_at_read regs0 5) 0 = true ↔ 0 = 5) ∧
    row_port (regs_at_read regs0 5) 5 = false ∧
    row_ddr (unselect_rows (regs_at_read regs0 5)) 5 = false ∧
    row_ddr (matrix_scan_regs cfg16 regs0) 5 = false :=
  have h := one_row_driven cfg16 regs0 (by decide) 5 (by decide)
  ⟨h.1 5 (by decide), h.1 0 (by decide), h.2.1, h.2.2.1 5 (by decide), h.2.2.2 5 (by decide)⟩

/-- One iteration of the row loop on the bits of `DDRB` and `PORTB` that belong to the
LED pins: bits 5 and 6 of `DDRB` are kept, bit 4 of `DDRB` is cleared, and bit 4 of
`PORTB` is cleared by the iteration for row 0 and kept by the others. -/
theorem scan_row_regs_led_pins (r : Regs) (i : Nat) :
    (scan_row_regs r i).DDRB.testBit 5 = r.DDRB.testBit 5 ∧
    (scan_row_regs r i).DDRB.testBit 6 = r.DDRB.testBit 6 ∧
    (scan_row_regs r i).DDRB.testBit 4 = false ∧
    (scan_row_regs r i).PORTB.testBit 4 = (r.PORTB.testBit 4 && !decide (i = 0)) := by
  have a1 : Nat.testBit 231 5 = true := by decide
  have a2 : Nat.testBit 231 6 = true := by decide
  have a3 : Nat.testBit 231 4 = false := by decide
  have a4 : Nat.testBit 16 5 = false := by decide
  have a5 : Nat.testBit 16 6 = false := by decide
  have a6 : Nat.testBit 8 5 = false := by decide
  have a7 : Nat.testBit 8 6 = false := by decide
  have a8 : Nat.testBit 24 4 = true := by decide
  have a9 : Nat.testBit 239 4 = false := by decide
  have a10 : Nat.testBit 247 4 = true := by decide
  unfold scan_row_regs select_row
  split <;> simp [unselect_rows, a1, a2, a3, a4, a5, a6, a7, a8, a9, a10]
  next h0 _ _ _ _ _ _ _ _ _ _ _ _ _ _ _ => exact fun _ => h0

/-- The LED pins after the row loop. -/
theorem scan_rows_regs_led_pins (r : Regs) (n : Nat) :
    ((List.range n).foldl scan_row_regs r).DDRB.testBit 5 = r.DDRB.testBit 5 ∧
    ((List.range n).foldl scan_row_regs r).DDRB.testBit 6 = r.DDRB.testBit 6 ∧
    (0 < n → ((List.range n).foldl scan_row_regs r).DDRB.testBit 4 = false ∧
      ((List.range n).foldl scan_row_regs r).PORTB.testBit 4 = false) := by
  induction n with
  | zero => exact ⟨rfl, rfl, fun h => absurd h (by decide)⟩
  | succ n ih =>
    rw [scan_rows_regs_succ]
    obtain ⟨h5, h6, h4, hp⟩ := scan_row_regs_led_pins ((List.range n).foldl scan_row_regs r) n
    refine ⟨by rw [h5, ih.1], by rw [h6, ih.2.1], fun _ => ⟨h4, ?_⟩⟩
    rw [hp]
    rcases Nat.eq_zero_or_pos n with hn | hn
    · simp [hn]
    · rw [(ih.2.2 hn).2]; rfl

/-- C19, as stated, fails: sixteen rows, reset registers, `led_set(0)`.  `led_set` sets
bit 4 of `DDRB` and of `PORTB`; pin B4 is also the pin of row 0, and after one
`matrix_scan` both bits are 0. -/
theorem led_pins_counterexample :
    ¬ ((matrix_scan_regs cfg16 (led_set leds012 0 regs0)).DDRB.testBit 4
        = (led_set leds012 0 regs0).DDRB.testBit 4) ∧
    ¬ ((matrix_scan_regs cfg16 (led_set leds012 0 regs0)).PORTB.testBit 4
        = (led_set leds012 0 regs0).PORTB.testBit 4) := by
  decide

/-- C19 (LED pins and scanning, amended).  For every `usb_led` and register state,
after `led_set` followed by one `matrix_scan`: bits 5 and 6 of `DDRB` have the values
`led_set` gave them; pin B4 is the pin of row 0 as well, and when `MATRIX_ROWS ≥ 1`
the pass leaves bit 4 of `DDRB` and bit 4 of `PORTB` at 0. -/
theorem led_pins_after_scan (cfg : Config) (leds : LedBits) (usb_led : Nat) (r : Regs) :
    ((matrix_scan_regs cfg (led_set leds usb_led r)).DDRB.testBit 5
        = (led_set leds usb_led r).DDRB.testBit 5 ∧
      (matrix_scan_regs cfg (led_set leds usb_led r)).DDRB.testBit 6
        = (led_set leds usb_led r).DDRB.testBit 6) ∧
    (0 < cfg.MATRIX_ROWS →
      (matrix_scan_regs cfg (led_set leds usb_led r)).DDRB.testBit 4 = false ∧
      (matrix_scan_regs cfg (led_set leds usb_led r)).PORTB.testBit 4 = false) := by
  obtain ⟨h5, h6, h4⟩ := scan_rows_regs_led_pins (led_set leds usb_led r) cfg.MATRIX_ROWS
  exact ⟨⟨h5, h6⟩, h4⟩

end Uni122
